import Mathlib

/-!
Verification of the flight-adjustment optimization engine
(`backend/tools/Optimizer.py` of the flight-adjustment-system repository).

The development shallowly embeds the engine's pure core:

* `normalize_flight_df` — canonicalisation of the incoming flight table
  (`Optimizer._normalize_flight_df`); timestamps are represented as absolute
  minutes, and column presence of the optional pandas columns is represented
  by explicit `Bool` flags on the table.
* `build_model` — the MILP construction (`Optimizer.build_model`): decision
  variables, structural constraints, curfew / hourly-capacity / quota
  compilation, and the weighted objective.  The pyomo model is embedded as a
  first-order record of variable declarations, linear constraints and a
  linear objective expression; a solution is an assignment `Var → ℚ` and
  feasibility is the conjunction of all declared domains and constraints.
* `get_optimization_results` — result extraction, with the solver outcome
  (an external process in the source) represented by its status and
  termination condition.
* `batch_solve` — the batch loop, with the external solver invocation
  abstracted as an oracle `Model → Except String (SolverResult × (Var → ℚ))`;
  a Python exception is embedded as the `Except.error` case.

Python `int(...)` on the digit strings appearing in rule fields is embedded
as a digits-only parser (`digitsToNat` / `charsToInt`); `str.split` is
embedded by structurally recursive splitting on the list of characters.
-/

attribute [local semireducible] Rat.add Rat.sub Rat.mul

/-- Split a list of characters at every occurrence of the separator `c`
(embedding of Python `str.split(sep)` for a one-character separator:
the result always has one more part than there are separators). -/
def splitOnChar (c : Char) : List Char → List (List Char)
  | [] => [[]]
  | x :: rest =>
    match splitOnChar c rest with
    | [] => if x = c then [[], []] else [[x]]
    | p :: ps => if x = c then [] :: p :: ps else (x :: p) :: ps

/-- Accumulator loop for `digitsToNat`. -/
def digitsToNatAux (acc : Nat) : List Char → Option Nat
  | [] => some acc
  | ch :: rest =>
    if ch.isDigit then digitsToNatAux (acc * 10 + (ch.toNat - 48)) rest else none

/-- Digits-only parse of a character list (embedding of Python `int(s)` for
an unsigned literal; any non-digit character, or an empty string, raises
`ValueError` in the source, embedded as `none`). -/
def digitsToNat (l : List Char) : Option Nat :=
  if l.isEmpty then none else digitsToNatAux 0 l

/-- Embedding of Python `int(s)` including a possible leading minus sign. -/
def charsToInt : List Char → Option Int
  | [] => none
  | ch :: rest =>
    if ch = '-' then (digitsToNat rest).map (fun n => -(n : Int))
    else (digitsToNat (ch :: rest)).map (fun n => (n : Int))

/-- Parse of a `"HH:MM"` time-of-day string into minutes, exactly as
`_apply_airport_curfew` does it: require a `':'`, split on it, and compute
`int(parts[0]) * 60 + int(parts[1])`.  `none` when the source would `continue`
(no `':'`) or raise inside the per-rule `try` (non-numeric part). -/
def parseHM (s : String) : Option Nat :=
  match splitOnChar ':' s.data with
  | p0 :: p1 :: _ =>
    match digitsToNat p0, digitsToNat p1 with
    | some h, some m => some (h * 60 + m)
    | _, _ => none
  | _ => none

/-- The suffix of `l` after the first occurrence of the two-character
sequence `a b`; `none` when the sequence does not occur
(embedding of Python `s.split(ab)[1]` guarded by `ab in s`). -/
def afterSeq2 (a b : Char) : List Char → Option (List Char)
  | [] => none
  | [_] => none
  | x :: y :: rest =>
    if x = a ∧ y = b then some rest
    else afterSeq2 a b (y :: rest)

/-- Window-key parse of `_apply_hourly_capacity`, returning
`(start_min, end_min)`.  The `'-'` branch takes `int(part.split(':')[0]) * 60`
on both sides (note: the minute component is discarded by the source); the
`"HH:MM(+M)"` branch computes `end = start + duration`.  `none` for every case
in which the source `continue`s or raises inside its `try`. -/
def parseWindow (k : String) : Option (Nat × Nat) :=
  if k.data.contains '-' then
    match splitOnChar '-' k.data with
    | [a, b] =>
      match splitOnChar ':' a, splitOnChar ':' b with
      | ha :: _ :: _, hb :: _ :: _ =>
        match digitsToNat ha, digitsToNat hb with
        | some h1, some h2 => some (h1 * 60, h2 * 60)
        | _, _ => none
      | _, _ => none
    | _ => none
  else
    match afterSeq2 '(' '+' k.data with
    | some p1 =>
      if k.data.contains ')' then
        match splitOnChar ':' (k.data.takeWhile (fun ch => ch ≠ '(')) with
        | h0 :: _ :: _ =>
          match digitsToNat h0, digitsToNat (p1.takeWhile (fun ch => ch ≠ ')')) with
          | some h, some dur => some (h * 60, h * 60 + dur)
          | _, _ => none
        | _ => none
      else none
    | none => none

/-- Modelled from the spec (refinement reference only): the window bounds the
claim C2 asserts, namely `[60*H1 + M1, 60*H2 + M2)` for `"HH:MM-HH:MM"` and
`[60*H + M, 60*H + M + D)` for `"HH:MM(+D)"` — i.e. including the minute
components that the source's `parseWindow` drops. -/
def specWindowBounds (k : String) : Option (Nat × Nat) :=
  if k.data.contains '-' then
    match splitOnChar '-' k.data with
    | [a, b] =>
      match splitOnChar ':' a, splitOnChar ':' b with
      | ha :: ma :: _, hb :: mb :: _ =>
        match digitsToNat ha, digitsToNat ma, digitsToNat hb, digitsToNat mb with
        | some h1, some m1, some h2, some m2 => some (h1 * 60 + m1, h2 * 60 + m2)
        | _, _, _, _ => none
      | _, _ => none
    | _ => none
  else
    match afterSeq2 '(' '+' k.data with
    | some p1 =>
      if k.data.contains ')' then
        match splitOnChar ':' (k.data.takeWhile (fun ch => ch ≠ '(')) with
        | h0 :: m0 :: _ =>
          match digitsToNat h0, digitsToNat m0,
              digitsToNat (p1.takeWhile (fun ch => ch ≠ ')')) with
          | some h, some mi, some dur => some (h * 60 + mi, h * 60 + mi + dur)
          | _, _, _ => none
        | _ => none
      else none
    | none => none

/-- A row of the raw flight table handed to the engine.  Timestamps are
absolute minutes.  The optional pandas columns (`flight_id`,
`target_departure_time`, `flight_duration_minutes`, `revenue`) are
column-level in the source, so their cell values live here and their
presence is recorded on `RawTable`. -/
structure RawRow where
  flight_number : String
  departure_airport : String
  arrival_airport : String
  STOT : Nat
  target_departure_time : Nat
  flight_id : String
  flight_duration_minutes : ℚ
  revenue : ℚ
deriving DecidableEq, Repr

/-- The raw flight table: rows plus presence flags for the optional columns
(`"flight_id" in df.columns` tests in `_normalize_flight_df`). -/
structure RawTable where
  rows : List RawRow
  has_flight_id : Bool
  has_target_departure : Bool
  has_duration : Bool
  has_revenue : Bool
deriving DecidableEq, Repr

/-- A canonical flight, i.e. one row of the normalized table. -/
structure Flight where
  flight_id : String
  flight_number : String
  departure_airport : String
  arrival_airport : String
  STOT : Nat
  target_departure_time : Nat
  flight_duration_minutes : ℚ
  revenue : ℚ
  base_delay_minutes : ℚ
  target_dep_min_of_day : Nat
deriving DecidableEq, Repr

/-- Embedding of `Optimizer._normalize_flight_df`: default the optional
columns (`target_departure_time := STOT`, duration `120`, revenue `30000`),
derive `base_delay_minutes` and `target_dep_min_of_day`, and take
`flight_id` from the `flight_id` column when present, else from
`flight_number`.  No de-duplication of ids happens here. -/
def normalize_flight_df (t : RawTable) : List Flight :=
  t.rows.map fun r =>
    let target := if t.has_target_departure then r.target_departure_time else r.STOT
    { flight_id := if t.has_flight_id then r.flight_id else r.flight_number
      flight_number := r.flight_number
      departure_airport := r.departure_airport
      arrival_airport := r.arrival_airport
      STOT := r.STOT
      target_departure_time := target
      flight_duration_minutes :=
        if t.has_duration then r.flight_duration_minutes else 120
      revenue := if t.has_revenue then r.revenue else 30000
      base_delay_minutes := (target : ℚ) - (r.STOT : ℚ)
      target_dep_min_of_day := target % 1440 }

/-- Fuel-driven decimal rendering loop (digits of `n`, most significant
first). -/
def natDigitsAux : Nat → Nat → List Char
  | 0, _ => []
  | fuel + 1, n =>
    if n < 10 then [Char.ofNat (48 + n)]
    else natDigitsAux fuel (n / 10) ++ [Char.ofNat (48 + n % 10)]

/-- Decimal rendering of a natural number (embedding of Python `str(n)` /
f-string interpolation of an integer). -/
def natToStr (n : Nat) : String := String.mk (natDigitsAux (n + 1) n)

/-- Embedding of the duplicate-id repair in the `optimize` endpoint
(`backend/api/main.py`): after normalization, if the `flight_id` index has
any duplicate, every row is re-assigned the id `"F" ++ toString (i+1)` in
input order. -/
def fixDuplicateIds (fs : List Flight) : List Flight :=
  if (fs.map (fun f => f.flight_id)).Nodup then fs
  else
    List.zipWith (fun f s => { f with flight_id := s }) fs
      ((List.range fs.length).map (fun i => "F" ++ natToStr (i + 1)))

/-- The decision and auxiliary variables of the pyomo model, indexed the same
way the source indexes its components (flight id, and airport / window key
for the rule-generated variables). -/
inductive Var where
  | x (f : String)
  | cancel_flight (f : String)
  | change_aircraft (f : String)
  | d (f : String)
  | dep_time_of_day (f : String)
  | arr_time_of_day (f : String)
  | curfew_hard_choice (f : String) (ap : String)
  | curfew_soft_violation (f : String) (ap : String)
  | curfew_soft_choice (f : String) (ap : String)
  | capacity_overage (ap : String) (win : String)
  | quota_overage (kind : String)
deriving DecidableEq, Repr

/-- Linear expressions over the model variables (pyomo expression trees).
`smul c e` is multiplication by the scalar `c` (the source writes scalar
products in either operand order). -/
inductive LinExpr where
  | const (c : ℚ)
  | var (v : Var)
  | add (a b : LinExpr)
  | sub (a b : LinExpr)
  | smul (c : ℚ) (e : LinExpr)
deriving DecidableEq, Repr

/-- Value of a linear expression under an assignment. -/
def LinExpr.eval (σ : Var → ℚ) : LinExpr → ℚ
  | const c => c
  | var v => σ v
  | add a b => a.eval σ + b.eval σ
  | sub a b => a.eval σ - b.eval σ
  | smul c e => c * e.eval σ

/-- The variables occurring in a linear expression. -/
def LinExpr.vars : LinExpr → List Var
  | const _ => []
  | var v => [v]
  | add a b => a.vars ++ b.vars
  | sub a b => a.vars ++ b.vars
  | smul _ e => e.vars

/-- A single relational constraint as added to `m.cons` by the source. -/
inductive LinCons where
  | le (a b : LinExpr)
  | eq (a b : LinExpr)
  | ge (a b : LinExpr)
deriving DecidableEq, Repr

/-- Satisfaction of one constraint. -/
def LinCons.holds (σ : Var → ℚ) : LinCons → Prop
  | .le a b => a.eval σ ≤ b.eval σ
  | .eq a b => a.eval σ = b.eval σ
  | .ge a b => b.eval σ ≤ a.eval σ

instance (σ : Var → ℚ) : (c : LinCons) → Decidable (c.holds σ)
  | .le a b => inferInstanceAs (Decidable (a.eval σ ≤ b.eval σ))
  | .eq a b => inferInstanceAs (Decidable (a.eval σ = b.eval σ))
  | .ge a b => inferInstanceAs (Decidable (b.eval σ ≤ a.eval σ))

/-- Variable domains, as declared through `pyo.Var(...)`:
`Binary`, `NonNegativeReals` with finite bounds, `NonNegativeReals` with
bounds `(0, None)`. -/
inductive Dom where
  | binary
  | nonNegBounded (lo hi : ℚ)
  | nonNeg
deriving DecidableEq, Repr

/-- Membership of a value in a domain. -/
def Dom.mem (q : ℚ) : Dom → Prop
  | .binary => q = 0 ∨ q = 1
  | .nonNegBounded lo hi => lo ≤ q ∧ q ≤ hi
  | .nonNeg => 0 ≤ q

instance (q : ℚ) : (dm : Dom) → Decidable (dm.mem q)
  | .binary => inferInstanceAs (Decidable (q = 0 ∨ q = 1))
  | .nonNegBounded lo hi => inferInstanceAs (Decidable (lo ≤ q ∧ q ≤ hi))
  | .nonNeg => inferInstanceAs (Decidable (0 ≤ q))

/-- One variable declaration of the model. -/
structure VarDecl where
  v : Var
  dom : Dom
deriving DecidableEq, Repr

/-- The artifacts a constraint-compilation step contributes to the model:
declared auxiliary variables, constraints for `m.cons`, and the
`(slack_var, priority)` penalty tags collected into `penalty_terms`. -/
structure Artifacts where
  decls : List VarDecl
  cons : List LinCons
  pens : List (Var × String)
deriving DecidableEq, Repr

/-- The empty artifact contribution. -/
def Artifacts.empty : Artifacts := ⟨[], [], []⟩

/-- Concatenation of artifact contributions, in program order. -/
def Artifacts.app (a b : Artifacts) : Artifacts :=
  ⟨a.decls ++ b.decls, a.cons ++ b.cons, a.pens ++ b.pens⟩

instance : Append Artifacts := ⟨Artifacts.app⟩

/-- One row of the `airport_restriction` table. -/
structure CurfewRule where
  restriction_type : String
  airport_code : String
  start_time_of_day : String
  end_time_of_day : String
  priority : Option String
deriving DecidableEq, Repr

/-- A value of the `airport_capacity` window map: the new dict format
`{limit, priority}` (with a numeric limit), the old bare-int format, or a
bare string that the source feeds through `int(...)`. -/
inductive CapDetails where
  | dictD (limit : ℚ) (priority : Option String)
  | intD (v : Int)
  | strD (s : String)
deriving DecidableEq, Repr

/-- Quota entry `{max, priority}`. -/
structure QuotaDetails where
  max : Option ℚ
  priority : Option String
deriving DecidableEq, Repr

/-- The `quota` dictionary (optional `"cancel"` and `"swap"` keys). -/
structure QuotaData where
  cancel : Option QuotaDetails
  swap : Option QuotaDetails
deriving DecidableEq, Repr

/-- The constraint bundle handed to `build_model`. -/
structure ConstraintData where
  airport_restriction : List CurfewRule
  airport_capacity : List (String × List (String × CapDetails))
  quota : QuotaData
deriving DecidableEq, Repr

/-- The embedded pyomo model: flight ids (`m.F`), variable declarations,
the constraint list (`m.cons`), the collected penalty terms, and the
objective expression. -/
structure Model where
  F : List String
  decls : List VarDecl
  cons : List LinCons
  penalty_terms : List (Var × String)
  objective : LinExpr
deriving DecidableEq, Repr

/-- A solution assignment is feasible for a model when every declared
variable lies in its domain and every constraint holds. -/
def Feasible (M : Model) (σ : Var → ℚ) : Prop :=
  (∀ dv ∈ M.decls, dv.dom.mem (σ dv.v)) ∧ (∀ c ∈ M.cons, c.holds σ)

instance (M : Model) (σ : Var → ℚ) : Decidable (Feasible M σ) :=
  inferInstanceAs (Decidable (_ ∧ _))

/-- The per-flight variable declarations of `build_model`
(`m.x`, `m.cancel_flight`, `m.change_aircraft`, `m.d`, `m.dep_time_of_day`,
`m.arr_time_of_day`; the time variables are bounded by
`MINUTES_IN_TWO_DAYS - 1 = 2879`). -/
def structuralDecls (fs : List Flight) (max_delay_minutes : ℚ) : List VarDecl :=
  fs.flatMap fun f =>
    [ ⟨.x f.flight_id, .binary⟩,
      ⟨.cancel_flight f.flight_id, .binary⟩,
      ⟨.change_aircraft f.flight_id, .binary⟩,
      ⟨.d f.flight_id, .nonNegBounded 0 max_delay_minutes⟩,
      ⟨.dep_time_of_day f.flight_id, .nonNegBounded 0 2879⟩,
      ⟨.arr_time_of_day f.flight_id, .nonNegBounded 0 2879⟩ ]

/-- The five structural constraints `build_model` adds for every flight:
action exclusivity, operation link, delay gating, and the two time
identities. -/
def structuralCons (fs : List Flight) (max_delay_minutes : ℚ) : List LinCons :=
  fs.flatMap fun f =>
    [ .le (.add (.var (.change_aircraft f.flight_id)) (.var (.cancel_flight f.flight_id)))
        (.const 1),
      .eq (.var (.x f.flight_id)) (.sub (.const 1) (.var (.cancel_flight f.flight_id))),
      .le (.var (.d f.flight_id)) (.smul max_delay_minutes (.var (.x f.flight_id))),
      .eq (.add (.const (f.target_dep_min_of_day : ℚ)) (.var (.d f.flight_id)))
        (.var (.dep_time_of_day f.flight_id)),
      .eq (.add (.add (.const (f.target_dep_min_of_day : ℚ)) (.const f.flight_duration_minutes))
          (.var (.d f.flight_id)))
        (.var (.arr_time_of_day f.flight_id)) ]

/-- Contribution of one curfew rule to one flight when every
`add_component` of the iteration succeeds (the per-flight body of
`_apply_airport_curfew`'s inner loop): skip flights at other airports, pick
the departure- or arrival-time variable, and emit either the hard Big-M
pair (priority `MUST`) or the soft pair with the `violation` flag charged
as a penalty.  The duplicate-component error path is handled by
`curfewFlightsLoop` below. -/
def curfewFlightArtifacts (BIG_M : ℚ) (ap : String) (st_min ed_min : Nat)
    (priority : String) (f : Flight) : Artifacts :=
  if f.departure_airport = ap ∨ f.arrival_airport = ap then
    let time_var : Var :=
      if f.departure_airport = ap then .dep_time_of_day f.flight_id
      else .arr_time_of_day f.flight_id
    if priority = "MUST" then
      let y : Var := .curfew_hard_choice f.flight_id ap
      ⟨[⟨y, .binary⟩],
       [ .le (.var time_var)
           (.add (.add (.const (ed_min : ℚ)) (.smul BIG_M (.var y)))
             (.smul BIG_M (.var (.cancel_flight f.flight_id)))),
         .ge (.var time_var)
           (.sub (.sub (.const (st_min : ℚ))
               (.smul BIG_M (.sub (.const 1) (.var y))))
             (.smul BIG_M (.var (.cancel_flight f.flight_id)))) ],
       []⟩
    else
      let v : Var := .curfew_soft_violation f.flight_id ap
      let y : Var := .curfew_soft_choice f.flight_id ap
      ⟨[⟨v, .binary⟩, ⟨y, .binary⟩],
       [ .le (.var time_var)
           (.add (.add (.add (.const (ed_min : ℚ)) (.smul BIG_M (.var y)))
               (.smul BIG_M (.var (.cancel_flight f.flight_id))))
             (.smul BIG_M (.var v))),
         .ge (.var time_var)
           (.sub (.sub (.sub (.const (st_min : ℚ))
                 (.smul BIG_M (.sub (.const 1) (.var y))))
               (.smul BIG_M (.var (.cancel_flight f.flight_id))))
             (.smul BIG_M (.var v))) ],
       [(v, priority)]⟩
  else Artifacts.empty

/-- Python `.replace('-', '_').replace(':', '_')`, applied by the source to
the soft curfew component names. -/
def sanitizeName (s : String) : String :=
  String.map (fun c => if c = '-' then '_' else if c = ':' then '_' else c) s

/-- The pyomo component name `f"curfew_hard_choice_{f}_{ap}"` (the source
does not sanitize this one). -/
def hardChoiceName (f ap : String) : String :=
  "curfew_hard_choice_" ++ f ++ "_" ++ ap

/-- The pyomo component name of the soft violation flag, sanitized. -/
def softViolationName (f ap : String) : String :=
  sanitizeName ("curfew_soft_violation_" ++ f ++ "_" ++ ap)

/-- The pyomo component name of the soft side selector, sanitized. -/
def softChoiceName (f ap : String) : String :=
  sanitizeName ("curfew_soft_choice_" ++ f ++ "_" ++ ap)

/-- The mutable pyomo-model state threaded through `_apply_airport_curfew`:
the component names registered so far (`m.add_component` raises on a
duplicate name) together with the artifacts added so far. -/
structure CurfewState where
  names : List String
  art : Artifacts
deriving DecidableEq, Repr

/-- The state at entry of `_apply_airport_curfew` (no `curfew_*` component
exists yet; the structural components carry unrelated fixed names). -/
def initCurfewState : CurfewState := ⟨[], Artifacts.empty⟩

/-- The inner `for f in m.F` loop of `_apply_airport_curfew`.  Each
`m.add_component` first checks the registered names: on a duplicate, pyomo
raises, the per-rule `except Exception: continue` catches it, and the rest
of the rule is abandoned while everything the rule added so far stays in
the model.  For a soft rule the violation flag (and its penalty tag) is
registered before the side selector, so a collision on the selector name
leaves the flag behind. -/
def curfewFlightsLoop (BIG_M : ℚ) (ap : String) (st_min ed_min : Nat)
    (priority : String) : List Flight → CurfewState → CurfewState
  | [], s => s
  | f :: rest, s =>
    if f.departure_airport = ap ∨ f.arrival_airport = ap then
      if priority = "MUST" then
        if hardChoiceName f.flight_id ap ∈ s.names then s
        else
          curfewFlightsLoop BIG_M ap st_min ed_min priority rest
            ⟨hardChoiceName f.flight_id ap :: s.names,
             s.art ++ curfewFlightArtifacts BIG_M ap st_min ed_min priority f⟩
      else
        if softViolationName f.flight_id ap ∈ s.names then s
        else
          if softChoiceName f.flight_id ap ∈
              (softViolationName f.flight_id ap :: s.names) then
            ⟨softViolationName f.flight_id ap :: s.names,
             s.art ++ ⟨[⟨.curfew_soft_violation f.flight_id ap, .binary⟩], [],
               [(.curfew_soft_violation f.flight_id ap, priority)]⟩⟩
          else
            curfewFlightsLoop BIG_M ap st_min ed_min priority rest
              ⟨softChoiceName f.flight_id ap ::
                 softViolationName f.flight_id ap :: s.names,
               s.art ++ curfewFlightArtifacts BIG_M ap st_min ed_min priority f⟩
    else curfewFlightsLoop BIG_M ap st_min ed_min priority rest s

/-- Contribution of one `airport_restriction` row: rows of another
restriction type, rows with unparseable times, and rows with a same-day
window (`start_min ≤ end_min`) leave the state untouched. -/
def curfewRuleStep (fs : List Flight) (BIG_M : ℚ) (r : CurfewRule)
    (s : CurfewState) : CurfewState :=
  if r.restriction_type = "AIRPORT_CURFEW" then
    match parseHM r.start_time_of_day, parseHM r.end_time_of_day with
    | some st_min, some ed_min =>
      if ed_min < st_min then
        curfewFlightsLoop BIG_M r.airport_code st_min ed_min
          (r.priority.getD "HIGH") fs s
      else s
    | _, _ => s
  else s

/-- The outer rule loop of `_apply_airport_curfew`, threading the component
name state across rules (the pyomo model is mutated in place). -/
def applyAirportCurfewLoop (fs : List Flight) (BIG_M : ℚ) :
    List CurfewRule → CurfewState → CurfewState
  | [], s => s
  | r :: rest, s =>
    applyAirportCurfewLoop fs BIG_M rest (curfewRuleStep fs BIG_M r s)

/-- Embedding of `Optimizer._apply_airport_curfew`. -/
def apply_airport_curfew (fs : List Flight) (BIG_M : ℚ)
    (rules : List CurfewRule) : Artifacts :=
  (applyAirportCurfewLoop fs BIG_M rules initCurfewState).art

/-- Limit/priority extraction of `_apply_hourly_capacity`.  It runs *before*
the per-window `try`, so a non-numeric old-format limit (`int(details)`)
raises out of the whole build; this is the only error case of the model
construction embedded here. -/
def capLimitPriority : CapDetails → Except String (ℚ × String)
  | .dictD limit priority => .ok (limit, priority.getD "HIGH")
  | .intD v => .ok ((v : ℚ), "HIGH")
  | .strD s =>
    match charsToInt s.data with
    | some v => .ok ((v : ℚ), "HIGH")
    | none => .error ("invalid literal for int() with base 10: " ++ s)

/-- Embedding of `sum(m.x[f] for f in flights_in_window)` (Python `sum` starts from `0`). -/
def sumX (fsS : List Flight) : LinExpr :=
  fsS.foldl (fun a f => .add a (.var (.x f.flight_id))) (.const 0)

/-- The window-membership set `flights_in_window`: departures from `ap` whose
`target_dep_min_of_day` lies in `[start_min, end_min)`. -/
def flightsInWindow (fs : List Flight) (ap : String) (start_min end_min : Nat) :
    List Flight :=
  fs.filter fun f =>
    f.departure_airport = ap ∧
      start_min ≤ f.target_dep_min_of_day ∧ f.target_dep_min_of_day < end_min

/-- Contribution of one `airport_capacity` window entry. -/
def capacityEntryArtifacts (fs : List Flight) (ap win_key : String)
    (details : CapDetails) : Except String Artifacts := do
  let lp ← capLimitPriority details
  match parseWindow win_key with
  | none => pure Artifacts.empty
  | some (start_min, end_min) =>
    let inWindow := flightsInWindow fs ap start_min end_min
    if inWindow.isEmpty then pure Artifacts.empty
    else
      let departures := sumX inWindow
      if lp.2 = "MUST" then
        pure ⟨[], [.le departures (.const lp.1)], []⟩
      else
        let overage : Var := .capacity_overage ap win_key
        pure ⟨[⟨overage, .nonNeg⟩],
          [.le departures (.add (.const lp.1) (.var overage))],
          [(overage, lp.2)]⟩

/-- The inner `for win_key, details in winmap.items()` loop. -/
def applyCapWindows (fs : List Flight) (ap : String) :
    List (String × CapDetails) → Except String Artifacts
  | [] => pure Artifacts.empty
  | (k, det) :: rest => do
    let a ← capacityEntryArtifacts fs ap k det
    let b ← applyCapWindows fs ap rest
    pure (a ++ b)

/-- Embedding of `Optimizer._apply_hourly_capacity`. -/
def apply_hourly_capacity (fs : List Flight) :
    List (String × List (String × CapDetails)) → Except String Artifacts
  | [] => pure Artifacts.empty
  | (ap, winmap) :: rest => do
    let a ← applyCapWindows fs ap winmap
    let b ← apply_hourly_capacity fs rest
    pure (a ++ b)

/-- Sum of one binary action variable over all flights. -/
def sumActs (mk : String → Var) (ids : List String) : LinExpr :=
  ids.foldl (fun a i => .add a (.var (mk i))) (.const 0)

/-- One branch of `_apply_quota` (`"cancel"` or `"swap"`). -/
def quotaPart (ids : List String) (kind : String) (mk : String → Var)
    (details : Option QuotaDetails) : Artifacts :=
  match details with
  | none => Artifacts.empty
  | some det =>
    match det.max with
    | none => Artifacts.empty
    | some limit =>
      if det.priority.getD "HIGH" = "MUST" then
        ⟨[], [.le (sumActs mk ids) (.const limit)], []⟩
      else
        let overage : Var := .quota_overage kind
        ⟨[⟨overage, .nonNeg⟩],
          [.le (sumActs mk ids) (.add (.const limit) (.var overage))],
          [(overage, det.priority.getD "HIGH")]⟩

/-- Embedding of `Optimizer._apply_quota`. -/
def apply_quota (ids : List String) (q : QuotaData) : Artifacts :=
  quotaPart ids "cancel" Var.cancel_flight q.cancel ++
    quotaPart ids "swap" Var.change_aircraft q.swap

/-- The built-in cost-parameter defaults (`C` in `build_model`). -/
def baseCostParams : List (String × ℚ) :=
  [("C_CANCEL", 30000), ("C_SWAP", 15000), ("C_DELAY_PER_MIN", 80),
   ("PENALTY_HIGH", 1000000), ("PENALTY_MEDIUM", 100000), ("PENALTY_LOW", 10000)]

/-- Lookup in `C` after `C.update(cost_params)`: the caller-supplied entry
wins, else the default table. -/
def Cget (cost_params : List (String × ℚ)) (k : String) : Option ℚ :=
  (List.lookup k cost_params).orElse (fun _ => List.lookup k baseCostParams)

/-- Total lookup `C[k]` for keys present in the default table (the `getD 0`
branch is unreachable for such keys). -/
def CgetD (cost_params : List (String × ℚ)) (k : String) : ℚ :=
  (Cget cost_params k).getD 0

/-- Embedding of `C.get("PENALTY_" + priority.upper(), C["PENALTY_MEDIUM"])`. -/
def penaltyOf (cost_params : List (String × ℚ)) (priority : String) : ℚ :=
  match Cget cost_params ("PENALTY_" ++ priority.toUpper) with
  | some c => c
  | none => CgetD cost_params "PENALTY_MEDIUM"

/-- Embedding of `weights.get(k, dflt)` (the `w` lambda of `build_model`). -/
def wget (weights : List (String × ℚ)) (k : String) (dflt : ℚ) : ℚ :=
  (List.lookup k weights).getD dflt

/-- A sum over the flight list, as built by a Python `sum(...)`
generator expression (left fold starting from `0`). -/
def sumExprOf (g : Flight → LinExpr) (fs : List Flight) : LinExpr :=
  fs.foldl (fun a f => .add a (g f)) (.const 0)

/-- The penalty block of the objective:
`cost_penalty += slack_var * C.get("PENALTY_" + priority.upper(), ...)`. -/
def penaltyExpr (cost_params : List (String × ℚ)) (pens : List (Var × String)) : LinExpr :=
  pens.foldl (fun acc vp => .add acc (.smul (penaltyOf cost_params vp.2) (.var vp.1)))
    (.const 0)

/-- The model assembled by `build_model` once every compilation step has
succeeded (`capA` is the hourly-capacity contribution). -/
def assembleModel (t : RawTable) (cd : ConstraintData)
    (weights cost_params : List (String × ℚ))
    (max_delay_minutes big_m : ℚ) (capA : Artifacts) : Model :=
  let fs := normalize_flight_df t
  let curfewA := apply_airport_curfew fs big_m cd.airport_restriction
  let quotaA := apply_quota (fs.map (fun f => f.flight_id)) cd.quota
  let pens := curfewA.pens ++ capA.pens ++ quotaA.pens
  let cost_cancel :=
    sumExprOf (fun f => .smul f.revenue (.var (.cancel_flight f.flight_id))) fs
  let cost_swap :=
    sumExprOf (fun f => .smul (CgetD cost_params "C_SWAP")
      (.var (.change_aircraft f.flight_id))) fs
  let cost_delay :=
    sumExprOf (fun f => .smul (CgetD cost_params "C_DELAY_PER_MIN")
      (.var (.d f.flight_id))) fs
  { F := fs.map (fun f => f.flight_id)
    decls := structuralDecls fs max_delay_minutes ++ curfewA.decls ++
      capA.decls ++ quotaA.decls
    cons := structuralCons fs max_delay_minutes ++ curfewA.cons ++
      capA.cons ++ quotaA.cons
    penalty_terms := pens
    objective :=
      .add (.add (.add (.smul (wget weights "cancel" 1) cost_cancel)
          (.smul (wget weights "swap" (3/10)) cost_swap))
        (.smul (wget weights "delay" (3/10)) cost_delay))
        (penaltyExpr cost_params pens) }

/-- Embedding of `Optimizer.build_model`.  `cost_params = []` stands for the
`None` default.  The only failing path is the non-numeric old-format
capacity limit (see `capLimitPriority`); every other malformed rule is
skipped inside the compilation functions. -/
def build_model (t : RawTable) (cd : ConstraintData)
    (weights cost_params : List (String × ℚ))
    (max_delay_minutes big_m : ℚ) : Except String Model :=
  match apply_hourly_capacity (normalize_flight_df t) cd.airport_capacity with
  | .error e => .error e
  | .ok capA =>
    .ok (assembleModel t cd weights cost_params max_delay_minutes big_m capA)

/-- Solver status, as classified by the pyomo results object. -/
inductive SolverStatus where
  | ok | warning | error | aborted | unknown
deriving DecidableEq, Repr

/-- Solver termination condition (the members used by the engine). -/
inductive TerminationCondition where
  | optimal | feasible | infeasible | unbounded | maxTimeLimit | solverError | other
deriving DecidableEq, Repr

/-- The solver outcome handed back from `solver.solve(m)`. -/
structure SolverResult where
  status : SolverStatus
  termination_condition : TerminationCondition
deriving DecidableEq, Repr

/-- One row of the extracted result table. -/
structure ResultRow where
  flight_number : String
  adjustment_action : String
  status : String
  additional_delay_minutes : Int
  adjusted_departure_time : Option Int
deriving DecidableEq, Repr

/-- The per-flight row built by `get_optimization_results`. Lean's `round`
stands in for Python's `int(round(.))`; the two differ only at exact
half-integers (half-up versus banker's rounding), which no theorem below
exercises. -/
def resultRow (σ : Var → ℚ) (f : Flight) : ResultRow :=
  let is_cancelled := (1 : ℚ)/2 < σ (.cancel_flight f.flight_id)
  let is_swapped := (1 : ℚ)/2 < σ (.change_aircraft f.flight_id)
  let delay_val := σ (.d f.flight_id)
  if is_cancelled then
    { flight_number := f.flight_number, adjustment_action := "取消航班",
      status := "取消", additional_delay_minutes := 0,
      adjusted_departure_time := none }
  else
    let delay : Int := round delay_val
    { flight_number := f.flight_number
      adjustment_action :=
        if is_swapped then "更换飞机"
        else if (1 : ℚ)/10 < delay_val then "变更时刻"
        else "正常执行"
      status := "执行"
      additional_delay_minutes := delay
      adjusted_departure_time := some ((f.target_departure_time : Int) + delay) }

/-- Embedding of `Optimizer.get_optimization_results`: `none` unless the
solver status is `ok` and the termination condition is `optimal` or
`feasible`; otherwise one row per normalized flight, read off the solved
variable values `σ`. -/
def get_optimization_results (t : RawTable) (result : SolverResult)
    (σ : Var → ℚ) : Option (List ResultRow) :=
  if result.status ≠ SolverStatus.ok ∨
      (result.termination_condition ≠ TerminationCondition.optimal ∧
        result.termination_condition ≠ TerminationCondition.feasible) then
    none
  else some ((normalize_flight_df t).map (resultRow σ))

/-- One batch outcome record, exactly the dictionary
`{"result": solution_df is not None, "table": solution_df}` built by
`batch_solve`. -/
structure BatchOutcome where
  result : Bool
  table : Option (List ResultRow)
deriving DecidableEq, Repr

/-- The body of one `batch_solve` iteration.  The external solver invocation
is the oracle argument; an `Except.error` from the model build or from the
oracle stands for the Python exception caught by the iteration's
`try/except`. -/
def solve_one (t : RawTable) (cd : ConstraintData)
    (oracle : Model → Except String (SolverResult × (Var → ℚ)))
    (severe_delay_threshold big_m : ℚ)
    (weights : List (String × ℚ)) : BatchOutcome :=
  match build_model t cd weights [] severe_delay_threshold big_m with
  | .error _ => ⟨false, none⟩
  | .ok m =>
    match oracle m with
    | .error _ => ⟨false, none⟩
    | .ok (res, σ) =>
      let tbl := get_optimization_results t res σ
      ⟨tbl.isSome, tbl⟩

/-- Embedding of `Optimizer.batch_solve`: one outcome record per weight
vector, in order; a failed iteration contributes `{result := false,
table := none}` and the loop continues. -/
def batch_solve (t : RawTable) (cd : ConstraintData)
    (oracle : Model → Except String (SolverResult × (Var → ℚ)))
    (weight_sets : List (List (String × ℚ)))
    (severe_delay_threshold big_m : ℚ) : List BatchOutcome :=
  weight_sets.map (solve_one t cd oracle severe_delay_threshold big_m)

/-- Modelled from the spec (refinement reference only): the forbidden
wrap-around interval claim C1 asserts for a curfew `(start_min, end_min)`,
namely `[start_min, start_min + 1440) ∪ ((end_min − 1440), end_min]` in the
two-day window. -/
def specForbidden (st_min ed_min : Nat) (tv : ℚ) : Prop :=
  ((st_min : ℚ) ≤ tv ∧ tv < (st_min : ℚ) + 1440) ∨
    ((ed_min : ℚ) - 1440 < tv ∧ tv ≤ (ed_min : ℚ))

instance (st_min ed_min : Nat) (tv : ℚ) : Decidable (specForbidden st_min ed_min tv) :=
  inferInstanceAs (Decidable (_ ∨ _))

/-- The trivial model (used only as the default of `okModelOf`). -/
def emptyModel : Model := ⟨[], [], [], [], .const 0⟩

/-- The model of a successful build (defaulting to `emptyModel` on the
error case, which concrete statements rule out separately). -/
def okModelOf (e : Except String Model) : Model :=
  match e with
  | .ok m => m
  | .error _ => emptyModel

/-- Decimal value of a digit list (proof-side inverse of `natDigitsAux`). -/
def digitsVal (l : List Char) : Nat :=
  l.foldl (fun a c => a * 10 + (c.toNat - 48)) 0

/-- Concrete one-flight table for claim C1: a flight out of PEK whose
target departure is minute 1380 (23:00). -/
def tC1 : RawTable :=
  ⟨[⟨"CA900", "PEK", "SHA", 1380, 0, "", 0, 0⟩], false, false, false, false⟩

/-- Concrete constraint bundle for claim C1: a `MUST` overnight curfew at
PEK from 23:00 to 06:00. -/
def cdC1 : ConstraintData :=
  ⟨[⟨"AIRPORT_CURFEW", "PEK", "23:00", "06:00", some "MUST"⟩], [], ⟨none, none⟩⟩

/-- Concrete solved assignment for claim C1: the flight is operated,
undalayed, departing at minute 1380 with the hard-choice selector at 1. -/
def sigC1 : Var → ℚ := fun v =>
  match v with
  | .x _ => 1
  | .cancel_flight _ => 0
  | .change_aircraft _ => 0
  | .d _ => 0
  | .dep_time_of_day _ => 1380
  | .arr_time_of_day _ => 1500
  | .curfew_hard_choice _ _ => 1
  | _ => 0

/-- Concrete one-flight table for claim C2: target departure minute 485
(08:05). -/
def tC2 : RawTable :=
  ⟨[⟨"CA1", "PEK", "SHA", 485, 0, "", 0, 0⟩], false, false, false, false⟩

/-- Concrete constraint bundle for claim C2: a `MUST` hourly capacity at
PEK with window key `"08:30-09:30"` and limit 2. -/
def cdC2 : ConstraintData :=
  ⟨[], [("PEK", [("08:30-09:30", CapDetails.dictD 2 (some "MUST"))])], ⟨none, none⟩⟩

/-- Concrete one-flight table for claims C3 and C4. -/
def tC4 : RawTable :=
  ⟨[⟨"CA2", "PEK", "SHA", 490, 0, "", 0, 0⟩], false, false, false, false⟩

/-- The empty constraint bundle. -/
def cdEmpty : ConstraintData := ⟨[], [], ⟨none, none⟩⟩

/-- Concrete feasible assignment for claim C4's witness. -/
def sigC4 : Var → ℚ := fun v =>
  match v with
  | .x _ => 1
  | .cancel_flight _ => 0
  | .change_aircraft _ => 0
  | .d _ => 30
  | .dep_time_of_day _ => 520
  | .arr_time_of_day _ => 640
  | _ => 0

/-- Concrete empty-rows table (claims C5 and C7). -/
def tEmptyRows : RawTable := ⟨[], false, false, false, false⟩

/-- Concrete failing solver oracle for claim C5. -/
def oracleC5 : Model → Except String (SolverResult × (Var → ℚ)) :=
  fun _ => .error "solver unavailable"

/-- Concrete same-day curfew rule for claim C6's witness. -/
def ruleC6 : CurfewRule := ⟨"AIRPORT_CURFEW", "PEK", "01:00", "05:00", some "MUST"⟩

/-- Concrete table for claim C6's witness. -/
def tC6 : RawTable :=
  ⟨[⟨"CA3", "PEK", "SHA", 70, 0, "", 0, 0⟩], false, false, false, false⟩

/-- Concrete curfew rule with an unparseable start time (claim C8). -/
def badTimeRule : CurfewRule := ⟨"AIRPORT_CURFEW", "PEK", "late", "06:00", some "MUST"⟩

/-- Concrete constraint bundle with a non-numeric old-format capacity limit
(claim C8's counterexample). -/
def cdC8 : ConstraintData :=
  ⟨[], [("PEK", [("08:00-09:00", CapDetails.strD "abc")])], ⟨none, none⟩⟩

/-- Concrete duplicate-id table for claim C9: two rows whose `flight_id`
column holds the same value. -/
def tC9 : RawTable :=
  ⟨[⟨"CA5", "PEK", "SHA", 480, 0, "A", 0, 0⟩,
    ⟨"CA6", "PEK", "SHA", 500, 0, "A", 0, 0⟩], true, false, false, false⟩

theorem Artifacts.app_decls (a b : Artifacts) : (a ++ b).decls = a.decls ++ b.decls := rfl

theorem Artifacts.app_cons (a b : Artifacts) : (a ++ b).cons = a.cons ++ b.cons := rfl

theorem Artifacts.app_pens (a b : Artifacts) : (a ++ b).pens = a.pens ++ b.pens := rfl

theorem Artifacts.empty_app (a : Artifacts) : Artifacts.empty ++ a = a := by
  cases a
  show Artifacts.app Artifacts.empty _ = _
  simp [Artifacts.app, Artifacts.empty]

theorem Artifacts.app_assoc (a b c : Artifacts) : a ++ b ++ c = a ++ (b ++ c) := by
  show Artifacts.app (Artifacts.app a b) c = Artifacts.app a (Artifacts.app b c)
  simp [Artifacts.app, List.append_assoc]

theorem curfewFlightsLoop_cons (bm : ℚ) (ap : String) (st ed : Nat) (p : String)
    (f : Flight) (tl : List Flight) (s : CurfewState) :
    curfewFlightsLoop bm ap st ed p (f :: tl) s =
      if f.departure_airport = ap ∨ f.arrival_airport = ap then
        if p = "MUST" then
          if hardChoiceName f.flight_id ap ∈ s.names then s
          else
            curfewFlightsLoop bm ap st ed p tl
              ⟨hardChoiceName f.flight_id ap :: s.names,
               s.art ++ curfewFlightArtifacts bm ap st ed p f⟩
        else
          if softViolationName f.flight_id ap ∈ s.names then s
          else
            if softChoiceName f.flight_id ap ∈
                (softViolationName f.flight_id ap :: s.names) then
              ⟨softViolationName f.flight_id ap :: s.names,
               s.art ++ ⟨[⟨.curfew_soft_violation f.flight_id ap, .binary⟩], [],
                 [(.curfew_soft_violation f.flight_id ap, p)]⟩⟩
            else
              curfewFlightsLoop bm ap st ed p tl
                ⟨softChoiceName f.flight_id ap ::
                   softViolationName f.flight_id ap :: s.names,
                 s.art ++ curfewFlightArtifacts bm ap st ed p f⟩
      else curfewFlightsLoop bm ap st ed p tl s := rfl

theorem curfewFlightsLoop_cons_mono (bm : ℚ) (ap : String) (st ed : Nat)
    (p : String) : ∀ (fs : List Flight) (s : CurfewState) {c : LinCons},
    c ∈ s.art.cons → c ∈ (curfewFlightsLoop bm ap st ed p fs s).art.cons := by
  intro fs
  induction fs with
  | nil => intro s c hc; exact hc
  | cons f tl ih =>
    intro s c hc
    rw [curfewFlightsLoop_cons]
    split_ifs with h1 h2 h3 h4 h5
    · exact hc
    · exact ih _ (by rw [Artifacts.app_cons]; exact List.mem_append.mpr (Or.inl hc))
    · exact hc
    · rw [Artifacts.app_cons]; exact List.mem_append.mpr (Or.inl hc)
    · exact ih _ (by rw [Artifacts.app_cons]; exact List.mem_append.mpr (Or.inl hc))
    · exact ih _ hc

theorem curfewFlightsLoop_decls_mono (bm : ℚ) (ap : String) (st ed : Nat)
    (p : String) : ∀ (fs : List Flight) (s : CurfewState) {dv : VarDecl},
    dv ∈ s.art.decls → dv ∈ (curfewFlightsLoop bm ap st ed p fs s).art.decls := by
  intro fs
  induction fs with
  | nil => intro s dv hd; exact hd
  | cons f tl ih =>
    intro s dv hd
    rw [curfewFlightsLoop_cons]
    split_ifs with h1 h2 h3 h4 h5
    · exact hd
    · exact ih _ (by rw [Artifacts.app_decls]; exact List.mem_append.mpr (Or.inl hd))
    · exact hd
    · rw [Artifacts.app_decls]; exact List.mem_append.mpr (Or.inl hd)
    · exact ih _ (by rw [Artifacts.app_decls]; exact List.mem_append.mpr (Or.inl hd))
    · exact ih _ hd

theorem curfewRuleStep_cons_mono {fs : List Flight} {bm : ℚ} {r : CurfewRule}
    {s : CurfewState} {c : LinCons} (hc : c ∈ s.art.cons) :
    c ∈ (curfewRuleStep fs bm r s).art.cons := by
  unfold curfewRuleStep
  split_ifs with h1
  · cases parseHM r.start_time_of_day with
    | none => exact hc
    | some st =>
      cases parseHM r.end_time_of_day with
      | none => exact hc
      | some ed =>
        show c ∈ (if ed < st then curfewFlightsLoop bm r.airport_code st ed
            (r.priority.getD "HIGH") fs s else s).art.cons
        split_ifs with h2
        · exact curfewFlightsLoop_cons_mono bm r.airport_code st ed
            (r.priority.getD "HIGH") fs s hc
        · exact hc
  · exact hc

theorem curfewRuleStep_decls_mono {fs : List Flight} {bm : ℚ} {r : CurfewRule}
    {s : CurfewState} {dv : VarDecl} (hd : dv ∈ s.art.decls) :
    dv ∈ (curfewRuleStep fs bm r s).art.decls := by
  unfold curfewRuleStep
  split_ifs with h1
  · cases parseHM r.start_time_of_day with
    | none => exact hd
    | some st =>
      cases parseHM r.end_time_of_day with
      | none => exact hd
      | some ed =>
        show dv ∈ (if ed < st then curfewFlightsLoop bm r.airport_code st ed
            (r.priority.getD "HIGH") fs s else s).art.decls
        split_ifs with h2
        · exact curfewFlightsLoop_decls_mono bm r.airport_code st ed
            (r.priority.getD "HIGH") fs s hd
        · exact hd
  · exact hd

theorem applyAirportCurfewLoop_cons_mono (fs : List Flight) (bm : ℚ) :
    ∀ (rules : List CurfewRule) (s : CurfewState) {c : LinCons},
    c ∈ s.art.cons → c ∈ (applyAirportCurfewLoop fs bm rules s).art.cons := by
  intro rules
  induction rules with
  | nil => intro s c hc; exact hc
  | cons r tl ih =>
    intro s c hc
    exact ih _ (curfewRuleStep_cons_mono hc)

theorem applyAirportCurfewLoop_decls_mono (fs : List Flight) (bm : ℚ) :
    ∀ (rules : List CurfewRule) (s : CurfewState) {dv : VarDecl},
    dv ∈ s.art.decls → dv ∈ (applyAirportCurfewLoop fs bm rules s).art.decls := by
  intro rules
  induction rules with
  | nil => intro s dv hd; exact hd
  | cons r tl ih =>
    intro s dv hd
    exact ih _ (curfewRuleStep_decls_mono hd)

theorem applyAirportCurfewLoop_append (fs : List Flight) (bm : ℚ) :
    ∀ (l1 l2 : List CurfewRule) (s : CurfewState),
    applyAirportCurfewLoop fs bm (l1 ++ l2) s =
      applyAirportCurfewLoop fs bm l2 (applyAirportCurfewLoop fs bm l1 s) := by
  intro l1
  induction l1 with
  | nil => intro l2 s; rfl
  | cons r tl ih =>
    intro l2 s
    show applyAirportCurfewLoop fs bm (tl ++ l2) (curfewRuleStep fs bm r s) = _
    rw [ih]
    rfl

theorem hardChoiceName_inj (ap a b : String)
    (h : hardChoiceName a ap = hardChoiceName b ap) : a = b := by
  unfold hardChoiceName at h
  have hd := congrArg String.data h
  rw [String.data_append, String.data_append, String.data_append,
    String.data_append] at hd
  have h1 := List.append_cancel_right hd
  have h2 := List.append_cancel_right h1
  have h3 := List.append_cancel_left h2
  exact congrArg String.mk h3

theorem curfewFlightsLoop_must_adds (bm : ℚ) (ap : String) (st ed : Nat) :
    ∀ (fs : List Flight) (s : CurfewState) (f : Flight),
    f ∈ fs →
    (f.departure_airport = ap ∨ f.arrival_airport = ap) →
    (∀ f' ∈ fs, (f'.departure_airport = ap ∨ f'.arrival_airport = ap) →
      hardChoiceName f'.flight_id ap ∉ s.names) →
    (fs.map (fun x => x.flight_id)).Nodup →
    (∀ c ∈ (curfewFlightArtifacts bm ap st ed "MUST" f).cons,
      c ∈ (curfewFlightsLoop bm ap st ed "MUST" fs s).art.cons) ∧
    (∀ dv ∈ (curfewFlightArtifacts bm ap st ed "MUST" f).decls,
      dv ∈ (curfewFlightsLoop bm ap st ed "MUST" fs s).art.decls) := by
  intro fs
  induction fs with
  | nil => intro s f hf; cases hf
  | cons f0 tl ih =>
    intro s f hf happ hfresh hnodup
    rcases List.mem_cons.mp hf with heq | hf'
    · subst heq
      rw [curfewFlightsLoop_cons, if_pos happ, if_pos rfl,
        if_neg (hfresh f (List.mem_cons_self _ _) happ)]
      constructor
      · intro c hc
        refine curfewFlightsLoop_cons_mono bm ap st ed "MUST" tl _ ?_
        rw [Artifacts.app_cons]
        exact List.mem_append.mpr (Or.inr hc)
      · intro dv hd
        refine curfewFlightsLoop_decls_mono bm ap st ed "MUST" tl _ ?_
        rw [Artifacts.app_decls]
        exact List.mem_append.mpr (Or.inr hd)
    · have hnodup' : (tl.map (fun x => x.flight_id)).Nodup := by
        rw [List.map_cons] at hnodup
        exact hnodup.of_cons
      have hid0 : f0.flight_id ∉ tl.map (fun x => x.flight_id) := by
        rw [List.map_cons] at hnodup
        exact (List.nodup_cons.mp hnodup).1
      by_cases h0 : f0.departure_airport = ap ∨ f0.arrival_airport = ap
      · rw [curfewFlightsLoop_cons, if_pos h0, if_pos rfl,
          if_neg (hfresh f0 (List.mem_cons_self _ _) h0)]
        refine ih _ f hf' happ ?_ hnodup'
        intro f' hmem happ'
        intro hcontra
        rcases List.mem_cons.mp hcontra with hname | hname
        · have hsame := hardChoiceName_inj ap f'.flight_id f0.flight_id hname
          exact hid0 (hsame ▸ List.mem_map.mpr ⟨f', hmem, rfl⟩)
        · exact hfresh f' (List.mem_cons_of_mem _ hmem) happ' hname
      · rw [curfewFlightsLoop_cons, if_neg h0]
        refine ih s f hf' happ ?_ hnodup'
        intro f' hmem happ'
        exact hfresh f' (List.mem_cons_of_mem _ hmem) happ'

theorem build_model_ok_inv {t : RawTable} {cd : ConstraintData}
    {w cp : List (String × ℚ)} {md bm : ℚ} {M : Model}
    (h : build_model t cd w cp md bm = .ok M) :
    ∃ capA, apply_hourly_capacity (normalize_flight_df t) cd.airport_capacity = .ok capA ∧
      M = assembleModel t cd w cp md bm capA := by
  unfold build_model at h
  cases happ : apply_hourly_capacity (normalize_flight_df t) cd.airport_capacity with
  | error e => rw [happ] at h; cases h
  | ok capA => rw [happ] at h; exact ⟨capA, rfl, ((Except.ok.injEq _ _).mp h).symm⟩

theorem assembleModel_cons (t : RawTable) (cd : ConstraintData)
    (w cp : List (String × ℚ)) (md bm : ℚ) (capA : Artifacts) :
    (assembleModel t cd w cp md bm capA).cons =
      structuralCons (normalize_flight_df t) md ++
        (apply_airport_curfew (normalize_flight_df t) bm cd.airport_restriction).cons ++
        capA.cons ++
        (apply_quota ((normalize_flight_df t).map (fun f => f.flight_id)) cd.quota).cons := rfl

theorem assembleModel_decls (t : RawTable) (cd : ConstraintData)
    (w cp : List (String × ℚ)) (md bm : ℚ) (capA : Artifacts) :
    (assembleModel t cd w cp md bm capA).decls =
      structuralDecls (normalize_flight_df t) md ++
        (apply_airport_curfew (normalize_flight_df t) bm cd.airport_restriction).decls ++
        capA.decls ++
        (apply_quota ((normalize_flight_df t).map (fun f => f.flight_id)) cd.quota).decls := rfl

theorem assembleModel_pens (t : RawTable) (cd : ConstraintData)
    (w cp : List (String × ℚ)) (md bm : ℚ) (capA : Artifacts) :
    (assembleModel t cd w cp md bm capA).penalty_terms =
      (apply_airport_curfew (normalize_flight_df t) bm cd.airport_restriction).pens ++
        capA.pens ++
        (apply_quota ((normalize_flight_df t).map (fun f => f.flight_id)) cd.quota).pens := rfl

theorem eval_foldl_add {α : Type} (σ : Var → ℚ) (g : α → LinExpr) (l : List α)
    (e : LinExpr) :
    (l.foldl (fun a x => .add a (g x)) e).eval σ =
      e.eval σ + (l.map (fun x => (g x).eval σ)).sum := by
  induction l generalizing e with
  | nil => simp
  | cons x tl ih =>
    simp only [List.foldl_cons, List.map_cons, List.sum_cons]
    rw [ih]
    simp only [LinExpr.eval]
    ring

theorem eval_sumExprOf (σ : Var → ℚ) (g : Flight → LinExpr) (fs : List Flight) :
    (sumExprOf g fs).eval σ = (fs.map (fun f => (g f).eval σ)).sum := by
  have h := eval_foldl_add σ g fs (.const 0)
  simpa [sumExprOf, LinExpr.eval] using h

theorem eval_penaltyExpr (σ : Var → ℚ) (cp : List (String × ℚ))
    (pens : List (Var × String)) :
    (penaltyExpr cp pens).eval σ =
      (pens.map (fun vp => penaltyOf cp vp.2 * σ vp.1)).sum := by
  have h := eval_foldl_add σ
    (fun vp : Var × String => .smul (penaltyOf cp vp.2) (.var vp.1)) pens (.const 0)
  simpa [penaltyExpr, LinExpr.eval] using h

theorem eval_sumX (σ : Var → ℚ) (S : List Flight) :
    (sumX S).eval σ = (S.map (fun f => σ (.x f.flight_id))).sum := by
  have h := eval_foldl_add σ (fun f : Flight => .var (.x f.flight_id)) S (.const 0)
  simpa [sumX, LinExpr.eval] using h

theorem vars_foldl_add {α : Type} (g : α → LinExpr) (l : List α) (e : LinExpr) :
    (l.foldl (fun a x => .add a (g x)) e).vars =
      e.vars ++ l.flatMap (fun x => (g x).vars) := by
  induction l generalizing e with
  | nil => simp
  | cons x tl ih =>
    simp only [List.foldl_cons, List.flatMap_cons]
    rw [ih]
    simp [LinExpr.vars, List.append_assoc]

theorem sumX_vars (S : List Flight) :
    (sumX S).vars = S.map (fun f => Var.x f.flight_id) := by
  have h := vars_foldl_add (fun f : Flight => .var (.x f.flight_id)) S (.const 0)
  simp only [LinExpr.vars, List.nil_append] at h
  rw [sumX, h]
  clear h
  induction S with
  | nil => simp
  | cons f tl ih => simp [List.flatMap_cons, ih, LinExpr.vars]

theorem structural_holds {fs : List Flight} {md : ℚ} {σ : Var → ℚ} {f : Flight}
    (hall : ∀ c ∈ structuralCons fs md, c.holds σ) (hf : f ∈ fs) :
    σ (.change_aircraft f.flight_id) + σ (.cancel_flight f.flight_id) ≤ 1 ∧
    σ (.x f.flight_id) = 1 - σ (.cancel_flight f.flight_id) ∧
    σ (.d f.flight_id) ≤ md * σ (.x f.flight_id) ∧
    (f.target_dep_min_of_day : ℚ) + σ (.d f.flight_id) = σ (.dep_time_of_day f.flight_id) ∧
    (f.target_dep_min_of_day : ℚ) + f.flight_duration_minutes + σ (.d f.flight_id) =
      σ (.arr_time_of_day f.flight_id) := by
  have h1 := hall _ (List.mem_flatMap.mpr
    ⟨f, hf, (by simp : (LinCons.le (.add (.var (.change_aircraft f.flight_id))
      (.var (.cancel_flight f.flight_id))) (.const 1)) ∈ _)⟩)
  have h2 := hall _ (List.mem_flatMap.mpr
    ⟨f, hf, (by simp : (LinCons.eq (.var (.x f.flight_id))
      (.sub (.const 1) (.var (.cancel_flight f.flight_id)))) ∈ _)⟩)
  have h3 := hall _ (List.mem_flatMap.mpr
    ⟨f, hf, (by simp : (LinCons.le (.var (.d f.flight_id))
      (.smul md (.var (.x f.flight_id)))) ∈ _)⟩)
  have h4 := hall _ (List.mem_flatMap.mpr
    ⟨f, hf, (by simp : (LinCons.eq (.add (.const (f.target_dep_min_of_day : ℚ))
      (.var (.d f.flight_id))) (.var (.dep_time_of_day f.flight_id))) ∈ _)⟩)
  have h5 := hall _ (List.mem_flatMap.mpr
    ⟨f, hf, (by simp : (LinCons.eq (.add (.add (.const (f.target_dep_min_of_day : ℚ))
      (.const f.flight_duration_minutes)) (.var (.d f.flight_id)))
      (.var (.arr_time_of_day f.flight_id))) ∈ _)⟩)
  simp only [LinCons.holds, LinExpr.eval] at h1 h2 h3 h4 h5
  exact ⟨h1, h2, h3, h4, h5⟩

theorem d_decl_mem {fs : List Flight} {md : ℚ} {f : Flight} (hf : f ∈ fs) :
    (⟨.d f.flight_id, .nonNegBounded 0 md⟩ : VarDecl) ∈ structuralDecls fs md :=
  List.mem_flatMap.mpr ⟨f, hf, by simp⟩

theorem applyCapWindows_cons (fs : List Flight) (ap k : String) (det : CapDetails)
    (tl : List (String × CapDetails)) :
    applyCapWindows fs ap ((k, det) :: tl) =
      Except.bind (capacityEntryArtifacts fs ap k det)
        (fun a => Except.bind (applyCapWindows fs ap tl)
          (fun b => Except.ok (a ++ b))) := rfl

theorem apply_hourly_capacity_cons (fs : List Flight) (ap : String)
    (wm : List (String × CapDetails)) (tl : List (String × List (String × CapDetails))) :
    apply_hourly_capacity fs ((ap, wm) :: tl) =
      Except.bind (applyCapWindows fs ap wm)
        (fun a => Except.bind (apply_hourly_capacity fs tl)
          (fun b => Except.ok (a ++ b))) := rfl

theorem applyCapWindows_ok_of_mem {fs : List Flight} {ap : String}
    {wm : List (String × CapDetails)} {A : Artifacts} {k : String} {det : CapDetails}
    (h : applyCapWindows fs ap wm = .ok A) (hm : (k, det) ∈ wm) :
    ∃ E, capacityEntryArtifacts fs ap k det = .ok E ∧ E.cons ⊆ A.cons := by
  induction wm generalizing A with
  | nil => cases hm
  | cons hd tl ih =>
    obtain ⟨k', det'⟩ := hd
    rw [applyCapWindows_cons] at h
    cases he : capacityEntryArtifacts fs ap k' det' with
    | error e => rw [he] at h; cases h
    | ok a =>
      rw [he] at h
      cases hb : applyCapWindows fs ap tl with
      | error e => rw [hb] at h; cases h
      | ok b =>
        rw [hb] at h
        have hA : a ++ b = A := by
          have := (Except.ok.injEq _ _).mp h
          exact this
        rcases List.mem_cons.mp hm with hh | hh
        · obtain ⟨hk, hdet⟩ := Prod.mk.injEq _ _ _ _ ▸ hh
          refine ⟨a, ?_, ?_⟩
          · rw [show k = k' from congrArg Prod.fst hh, show det = det' from congrArg Prod.snd hh]
            exact he
          · intro c hc
            rw [← hA, Artifacts.app_cons]
            exact List.mem_append.mpr (Or.inl hc)
        · obtain ⟨E, hE, hsub⟩ := ih hb hh
          refine ⟨E, hE, ?_⟩
          intro c hc
          rw [← hA, Artifacts.app_cons]
          exact List.mem_append.mpr (Or.inr (hsub hc))

theorem apply_hourly_capacity_ok_of_mem {fs : List Flight}
    {cap : List (String × List (String × CapDetails))} {A : Artifacts}
    {ap : String} {wm : List (String × CapDetails)}
    (h : apply_hourly_capacity fs cap = .ok A) (hm : (ap, wm) ∈ cap) :
    ∃ B, applyCapWindows fs ap wm = .ok B ∧ B.cons ⊆ A.cons := by
  induction cap generalizing A with
  | nil => cases hm
  | cons hd tl ih =>
    obtain ⟨ap', wm'⟩ := hd
    rw [apply_hourly_capacity_cons] at h
    cases he : applyCapWindows fs ap' wm' with
    | error e => rw [he] at h; cases h
    | ok a =>
      rw [he] at h
      cases hb : apply_hourly_capacity fs tl with
      | error e => rw [hb] at h; cases h
      | ok b =>
        rw [hb] at h
        have hA : a ++ b = A := (Except.ok.injEq _ _).mp h
        rcases List.mem_cons.mp hm with hh | hh
        · refine ⟨a, ?_, ?_⟩
          · rw [show ap = ap' from congrArg Prod.fst hh,
              show wm = wm' from congrArg Prod.snd hh]
            exact he
          · intro c hc
            rw [← hA, Artifacts.app_cons]
            exact List.mem_append.mpr (Or.inl hc)
        · obtain ⟨B, hB, hsub⟩ := ih hb hh
          refine ⟨B, hB, ?_⟩
          intro c hc
          rw [← hA, Artifacts.app_cons]
          exact List.mem_append.mpr (Or.inr (hsub hc))

/-- C7 (amended): `get_optimization_results` returns a non-null result table
iff the solver status is `ok` and the termination condition is `optimal` or
`feasible`; every other termination yields a bare `none` (no reason is
attached to it — see the counterexample). -/
theorem c7_extraction_iff (t : RawTable) (res : SolverResult) (σ : Var → ℚ) :
    (get_optimization_results t res σ).isSome ↔
      (res.status = SolverStatus.ok ∧
        (res.termination_condition = TerminationCondition.optimal ∨
          res.termination_condition = TerminationCondition.feasible)) := by
  rcases res with ⟨st, tc⟩
  unfold get_optimization_results
  by_cases h : st ≠ SolverStatus.ok ∨
      (tc ≠ TerminationCondition.optimal ∧ tc ≠ TerminationCondition.feasible)
  · rw [if_pos h]
    simp only [Option.isSome_none, Bool.false_eq_true, false_iff]
    intro hcon
    rcases h with h | ⟨h1, h2⟩
    · exact h hcon.1
    · rcases hcon.2 with hc | hc
      · exact h1 hc
      · exact h2 hc
  · rw [if_neg h]
    push_neg at h
    simp only [Option.isSome_some, true_iff]
    refine ⟨h.1, ?_⟩
    by_cases ho : tc = TerminationCondition.optimal
    · exact Or.inl ho
    · exact Or.inr (h.2 ho)

/-- C7 counterexample: the claim says a failed termination "produces a null
result carrying the reason", but the source returns a bare `None`: the
extraction outputs for two different failure reasons (infeasible vs
unbounded) are one and the same `none`, so the null result carries no
reason. -/
theorem c7_counterexample :
    get_optimization_results tEmptyRows
        ⟨SolverStatus.ok, TerminationCondition.infeasible⟩ (fun _ => 0) = none ∧
    get_optimization_results tEmptyRows
        ⟨SolverStatus.ok, TerminationCondition.unbounded⟩ (fun _ => 0) = none ∧
    TerminationCondition.infeasible ≠ TerminationCondition.unbounded :=
  ⟨rfl, rfl, by decide⟩

/-- C5 (amended): `batch_solve` returns exactly one outcome record per
weight vector, in input order, the `i`-th record being the outcome of
solving with the `i`-th weight vector alone; a failure in one run yields
`{result := false, table := none}` at that index and leaves all other
records untouched (the batch is a pointwise map).  The records do *not*
carry the weight vector they were solved with (see the counterexample). -/
theorem c5_batch_order (t : RawTable) (cd : ConstraintData)
    (oracle : Model → Except String (SolverResult × (Var → ℚ)))
    (ws : List (List (String × ℚ))) (sdt bm : ℚ) (i : Nat) :
    (batch_solve t cd oracle ws sdt bm).length = ws.length ∧
    (batch_solve t cd oracle ws sdt bm)[i]? =
      (ws[i]?).map (solve_one t cd oracle sdt bm) := by
  constructor
  · simp [batch_solve]
  · simp [batch_solve]

/-- C5 counterexample: the outcome records carry no weight vector — two
batches run over different weight vectors produce identical records, so
the `i`-th record cannot "carry the weight vector it was solved with". -/
theorem c5_counterexample :
    batch_solve tEmptyRows cdEmpty oracleC5 [[("cancel", 1)]] 360 50000 =
      batch_solve tEmptyRows cdEmpty oracleC5 [[("cancel", 0)]] 360 50000 ∧
    ([("cancel", (1 : ℚ))] ≠ [("cancel", (0 : ℚ))]) :=
  ⟨rfl, by decide⟩

theorem Cget_cons_ne (k key : String) (v : ℚ) (cp : List (String × ℚ))
    (h : ¬ key = k) : Cget ((k, v) :: cp) key = Cget cp key := by
  unfold Cget
  have hbeq : (key == k) = false := beq_eq_false_iff_ne.mpr h
  have : List.lookup key ((k, v) :: cp) = List.lookup key cp := by
    simp [List.lookup, hbeq]
  rw [this]

theorem penalty_key_ne (s : String) : ¬ ("PENALTY_" ++ s = "C_CANCEL") := by
  intro h
  have hlen := congrArg String.length h
  rw [String.length_append] at hlen
  have h8 : ("PENALTY_" : String).length = 8 := rfl
  have h8' : ("C_CANCEL" : String).length = 8 := rfl
  rw [h8, h8'] at hlen
  have hs : s.length = 0 := by omega
  obtain ⟨data⟩ := s
  have hdata : data = [] := by
    have : data.length = 0 := hs
    exact List.length_eq_zero.mp this
  subst hdata
  exact absurd h (by decide)

theorem CgetD_cons_cancel (cp : List (String × ℚ)) (v : ℚ) (k : String)
    (h : ¬ k = "C_CANCEL") :
    CgetD (("C_CANCEL", v) :: cp) k = CgetD cp k := by
  unfold CgetD
  rw [Cget_cons_ne _ _ _ _ h]

theorem penaltyOf_cons_cancel (cp : List (String × ℚ)) (v : ℚ) (p : String) :
    penaltyOf (("C_CANCEL", v) :: cp) p = penaltyOf cp p := by
  unfold penaltyOf
  rw [Cget_cons_ne _ _ _ _ (penalty_key_ne p.toUpper),
    show CgetD (("C_CANCEL", v) :: cp) "PENALTY_MEDIUM" = CgetD cp "PENALTY_MEDIUM" from
      CgetD_cons_cancel _ _ _ (by decide)]

theorem penaltyExpr_cons_cancel (cp : List (String × ℚ)) (v : ℚ)
    (pens : List (Var × String)) :
    penaltyExpr (("C_CANCEL", v) :: cp) pens = penaltyExpr cp pens := by
  unfold penaltyExpr
  have hfun : (fun (acc : LinExpr) (vp : Var × String) =>
      LinExpr.add acc (.smul (penaltyOf (("C_CANCEL", v) :: cp) vp.2) (.var vp.1))) =
      (fun acc vp => LinExpr.add acc (.smul (penaltyOf cp vp.2) (.var vp.1))) := by
    funext acc vp
    rw [penaltyOf_cons_cancel]
  rw [hfun]

/-- C10: the `C_CANCEL` cost parameter is dead — `build_model` produces the
identical model (constraints, declarations, penalty terms and objective)
for any two values supplied for `cost_params["C_CANCEL"]`, because the
cancellation term of the objective is charged at each flight's own
`revenue` and `C_CANCEL` is read nowhere. -/
theorem c10_c_cancel_dead (t : RawTable) (cd : ConstraintData)
    (w cp : List (String × ℚ)) (md bm : ℚ) (v1 v2 : ℚ) :
    build_model t cd w (("C_CANCEL", v1) :: cp) md bm =
      build_model t cd w (("C_CANCEL", v2) :: cp) md bm := by
  unfold build_model
  cases hcap : apply_hourly_capacity (normalize_flight_df t) cd.airport_capacity with
  | error e => rfl
  | ok capA =>
    have hassemble : assembleModel t cd w (("C_CANCEL", v1) :: cp) md bm capA =
        assembleModel t cd w (("C_CANCEL", v2) :: cp) md bm capA := by
      unfold assembleModel
      rw [show CgetD (("C_CANCEL", v1) :: cp) "C_SWAP" = CgetD cp "C_SWAP" from
          CgetD_cons_cancel _ _ _ (by decide),
        show CgetD (("C_CANCEL", v2) :: cp) "C_SWAP" = CgetD cp "C_SWAP" from
          CgetD_cons_cancel _ _ _ (by decide),
        show CgetD (("C_CANCEL", v1) :: cp) "C_DELAY_PER_MIN" = CgetD cp "C_DELAY_PER_MIN" from
          CgetD_cons_cancel _ _ _ (by decide),
        show CgetD (("C_CANCEL", v2) :: cp) "C_DELAY_PER_MIN" = CgetD cp "C_DELAY_PER_MIN" from
          CgetD_cons_cancel _ _ _ (by decide)]
      simp only [penaltyExpr_cons_cancel]
    exact congrArg Except.ok hassemble

/-- C4: structural invariants of every feasible solution of a built model —
action exclusivity, the operation link `x = 1 − cancel`, the delay bounds
with `d = 0` under cancellation, and the two time identities. -/
theorem c4_structural_invariants (t : RawTable) (cd : ConstraintData)
    (w cp : List (String × ℚ)) (md bm : ℚ) (M : Model) (σ : Var → ℚ) (f : Flight)
    (hbuild : build_model t cd w cp md bm = .ok M)
    (hfeas : Feasible M σ)
    (hf : f ∈ normalize_flight_df t) :
    σ (.change_aircraft f.flight_id) + σ (.cancel_flight f.flight_id) ≤ 1 ∧
    σ (.x f.flight_id) = 1 - σ (.cancel_flight f.flight_id) ∧
    0 ≤ σ (.d f.flight_id) ∧ σ (.d f.flight_id) ≤ md ∧
    (σ (.cancel_flight f.flight_id) = 1 → σ (.d f.flight_id) = 0) ∧
    σ (.dep_time_of_day f.flight_id) = (f.target_dep_min_of_day : ℚ) + σ (.d f.flight_id) ∧
    σ (.arr_time_of_day f.flight_id) =
      σ (.dep_time_of_day f.flight_id) + f.flight_duration_minutes := by
  obtain ⟨capA, hcap, hM⟩ := build_model_ok_inv hbuild
  subst hM
  obtain ⟨hdom, hcons⟩ := hfeas
  have hallc : ∀ c ∈ structuralCons (normalize_flight_df t) md, c.holds σ := by
    intro c hc
    apply hcons
    rw [assembleModel_cons]
    exact List.mem_append.mpr (Or.inl (List.mem_append.mpr (Or.inl
      (List.mem_append.mpr (Or.inl hc)))))
  obtain ⟨h1, h2, h3, h4, h5⟩ := structural_holds hallc hf
  have hdDom : Dom.mem (σ (.d f.flight_id)) (.nonNegBounded 0 md) := by
    have hmem := @d_decl_mem (normalize_flight_df t) md f hf
    have := hdom _ (by
      rw [assembleModel_decls]
      exact List.mem_append.mpr (Or.inl (List.mem_append.mpr (Or.inl
        (List.mem_append.mpr (Or.inl hmem))))))
    exact this
  obtain ⟨hd0, hd1⟩ := hdDom
  refine ⟨h1, h2, hd0, hd1, ?_, ?_, ?_⟩
  · intro hcan
    have hx0 : σ (.x f.flight_id) = 0 := by rw [h2, hcan]; ring
    rw [hx0] at h3
    have : md * (0 : ℚ) = 0 := by ring
    rw [this] at h3
    linarith
  · linarith
  · linarith

set_option maxRecDepth 10000 in
/-- C4 witness: a concrete one-flight model and a concrete feasible
assignment at which the invariants of `c4_structural_invariants` are
instantiated (delay 30, departure 490 + 30 = 520, arrival 520 + 120). -/
theorem c4_witness :
    Feasible (okModelOf (build_model tC4 cdEmpty [] [] 240 10000)) sigC4 ∧
    (sigC4 (.cancel_flight "CA2") = 1 → sigC4 (.d "CA2") = 0) ∧
    sigC4 (.dep_time_of_day "CA2") = (490 : ℚ) + sigC4 (.d "CA2") := by
  have hb : build_model tC4 cdEmpty [] [] 240 10000 =
      .ok (okModelOf (build_model tC4 cdEmpty [] [] 240 10000)) := rfl
  have hfe : Feasible (okModelOf (build_model tC4 cdEmpty [] [] 240 10000)) sigC4 := by
    decide
  have hf : (⟨"CA2", "CA2", "PEK", "SHA", 490, 490, 120, 30000, 0, 490⟩ : Flight) ∈
      normalize_flight_df tC4 := by decide
  have h := c4_structural_invariants tC4 cdEmpty [] [] 240 10000 _ sigC4 _ hb hfe hf
  exact ⟨hfe, h.2.2.2.2.1, by simpa using h.2.2.2.2.2.1⟩

theorem assembleModel_objective (t : RawTable) (cd : ConstraintData)
    (w cp : List (String × ℚ)) (md bm : ℚ) (capA : Artifacts) :
    (assembleModel t cd w cp md bm capA).objective =
      .add (.add (.add
        (.smul (wget w "cancel" 1)
          (sumExprOf (fun f => .smul f.revenue (.var (.cancel_flight f.flight_id)))
            (normalize_flight_df t)))
        (.smul (wget w "swap" (3/10))
          (sumExprOf (fun f => .smul (CgetD cp "C_SWAP")
            (.var (.change_aircraft f.flight_id))) (normalize_flight_df t))))
        (.smul (wget w "delay" (3/10))
          (sumExprOf (fun f => .smul (CgetD cp "C_DELAY_PER_MIN")
            (.var (.d f.flight_id))) (normalize_flight_df t))))
        (penaltyExpr cp
          ((apply_airport_curfew (normalize_flight_df t) bm cd.airport_restriction).pens ++
            capA.pens ++
            (apply_quota ((normalize_flight_df t).map (fun f => f.flight_id))
              cd.quota).pens)) := rfl

/-- C3: the objective of every built model decomposes as
`w_cancel · Σ cancel·revenue + w_swap · Σ swap·C_SWAP +
w_delay · Σ d·C_DELAY_PER_MIN + Σ PENALTY(priority)·slack`, where the
caller-supplied weights (with defaults cancel 1.0, swap 0.3, delay 0.3)
multiply only the three action terms and each penalty slack is charged at
its priority's absolute penalty constant, unscaled by any weight. -/
theorem c3_objective_decomposition (t : RawTable) (cd : ConstraintData)
    (w cp : List (String × ℚ)) (md bm : ℚ) (M : Model) (σ : Var → ℚ)
    (hbuild : build_model t cd w cp md bm = .ok M) :
    M.objective.eval σ =
      wget w "cancel" 1 *
        ((normalize_flight_df t).map
          (fun f => f.revenue * σ (.cancel_flight f.flight_id))).sum +
      wget w "swap" (3/10) *
        ((normalize_flight_df t).map
          (fun f => CgetD cp "C_SWAP" * σ (.change_aircraft f.flight_id))).sum +
      wget w "delay" (3/10) *
        ((normalize_flight_df t).map
          (fun f => CgetD cp "C_DELAY_PER_MIN" * σ (.d f.flight_id))).sum +
      (M.penalty_terms.map (fun vp => penaltyOf cp vp.2 * σ vp.1)).sum := by
  obtain ⟨capA, hcap, hM⟩ := build_model_ok_inv hbuild
  subst hM
  rw [assembleModel_objective, assembleModel_pens]
  simp only [LinExpr.eval, eval_sumExprOf, eval_penaltyExpr]

/-- C3 witness: the decomposition instantiated on a concrete one-flight
model with empty weights and cost parameters. -/
theorem c3_witness :
    build_model tC4 cdEmpty [] [] 240 10000 =
      .ok (okModelOf (build_model tC4 cdEmpty [] [] 240 10000)) ∧
    (okModelOf (build_model tC4 cdEmpty [] [] 240 10000)).objective.eval sigC4 =
      wget [] "cancel" 1 *
        ((normalize_flight_df tC4).map
          (fun f => f.revenue * sigC4 (.cancel_flight f.flight_id))).sum +
      wget [] "swap" (3/10) *
        ((normalize_flight_df tC4).map
          (fun f => CgetD [] "C_SWAP" * sigC4 (.change_aircraft f.flight_id))).sum +
      wget [] "delay" (3/10) *
        ((normalize_flight_df tC4).map
          (fun f => CgetD [] "C_DELAY_PER_MIN" * sigC4 (.d f.flight_id))).sum +
      ((okModelOf (build_model tC4 cdEmpty [] [] 240 10000)).penalty_terms.map
        (fun vp => penaltyOf [] vp.2 * sigC4 vp.1)).sum :=
  ⟨rfl, c3_objective_decomposition tC4 cdEmpty [] [] 240 10000 _ sigC4 rfl⟩


theorem exbind_ok {ε α β : Type} (a : α) (f : α → Except ε β) :
    Except.bind (Except.ok a) f = f a := rfl

theorem exbind_err {ε α β : Type} (e : ε) (f : α → Except ε β) :
    Except.bind (Except.error e) f = Except.error e := rfl

theorem bindb_ok {ε α β : Type} (a : α) (f : α → Except ε β) :
    Bind.bind (Except.ok a) f = f a := rfl

theorem build_model_curfew_rule_noop (t : RawTable) (w cp : List (String × ℚ))
    (md bm : ℚ) (ac : List (String × List (String × CapDetails))) (q : QuotaData)
    (l1 l2 : List CurfewRule) (r : CurfewRule)
    (hstep : ∀ s : CurfewState, curfewRuleStep (normalize_flight_df t) bm r s = s) :
    build_model t ⟨l1 ++ r :: l2, ac, q⟩ w cp md bm =
      build_model t ⟨l1 ++ l2, ac, q⟩ w cp md bm := by
  have hcur : apply_airport_curfew (normalize_flight_df t) bm (l1 ++ r :: l2) =
      apply_airport_curfew (normalize_flight_df t) bm (l1 ++ l2) := by
    unfold apply_airport_curfew
    rw [applyAirportCurfewLoop_append, applyAirportCurfewLoop_append]
    have hmid : applyAirportCurfewLoop (normalize_flight_df t) bm (r :: l2)
        (applyAirportCurfewLoop (normalize_flight_df t) bm l1 initCurfewState) =
        applyAirportCurfewLoop (normalize_flight_df t) bm l2
          (applyAirportCurfewLoop (normalize_flight_df t) bm l1 initCurfewState) := by
      show applyAirportCurfewLoop (normalize_flight_df t) bm l2
        (curfewRuleStep (normalize_flight_df t) bm r
          (applyAirportCurfewLoop (normalize_flight_df t) bm l1 initCurfewState)) = _
      rw [hstep]
    rw [hmid]
  unfold build_model
  cases hcap : apply_hourly_capacity (normalize_flight_df t)
      (ConstraintData.airport_capacity ⟨l1 ++ r :: l2, ac, q⟩) with
  | error e => rfl
  | ok capA =>
    have hassemble : assembleModel t ⟨l1 ++ r :: l2, ac, q⟩ w cp md bm capA =
        assembleModel t ⟨l1 ++ l2, ac, q⟩ w cp md bm capA := by
      simp only [assembleModel, hcur]
    exact congrArg Except.ok hassemble

/-- C6: a curfew rule whose parsed window is same-day (`start ≤ end`) is
accepted but adds nothing — `build_model` returns a model identical to one
built without the rule, for every priority (`MUST` included): the curfew
compiler only acts when `start_min > end_min`. -/
theorem c6_same_day_curfew_ignored (t : RawTable) (w cp : List (String × ℚ))
    (md bm : ℚ) (ac : List (String × List (String × CapDetails))) (q : QuotaData)
    (l1 l2 : List CurfewRule) (r : CurfewRule) (st ed : Nat)
    (hst : parseHM r.start_time_of_day = some st)
    (hed : parseHM r.end_time_of_day = some ed)
    (hle : st ≤ ed) :
    build_model t ⟨l1 ++ r :: l2, ac, q⟩ w cp md bm =
      build_model t ⟨l1 ++ l2, ac, q⟩ w cp md bm := by
  apply build_model_curfew_rule_noop
  intro s
  unfold curfewRuleStep
  by_cases htype : r.restriction_type = "AIRPORT_CURFEW"
  · rw [if_pos htype, hst, hed]
    simp only [if_neg (by omega : ¬ ed < st)]
  · rw [if_neg htype]

/-- C6 witness: inserting a concrete same-day `MUST` curfew (PEK,
01:00–05:00) leaves the built model unchanged. -/
theorem c6_witness :
    parseHM "01:00" = some 60 ∧ parseHM "05:00" = some 300 ∧
    build_model tC6 ⟨[ruleC6], [], ⟨none, none⟩⟩ [] [] 240 10000 =
      build_model tC6 ⟨[], [], ⟨none, none⟩⟩ [] [] 240 10000 :=
  ⟨rfl, rfl,
    c6_same_day_curfew_ignored tC6 [] [] 240 10000 [] ⟨none, none⟩ [] [] ruleC6
      60 300 rfl rfl (by omega)⟩

theorem capacityEntry_skip {fs : List Flight} {ap k : String} {det : CapDetails}
    {lp : ℚ × String} (hlp : capLimitPriority det = .ok lp)
    (hwin : parseWindow k = none) :
    capacityEntryArtifacts fs ap k det = .ok Artifacts.empty := by
  unfold capacityEntryArtifacts
  rw [hlp, bindb_ok]
  rw [hwin]
  rfl

theorem applyCapWindows_skip {fs : List Flight} {ap : String}
    {w1 w2 : List (String × CapDetails)} {k : String} {det : CapDetails}
    {lp : ℚ × String} (hlp : capLimitPriority det = .ok lp)
    (hwin : parseWindow k = none) :
    applyCapWindows fs ap (w1 ++ (k, det) :: w2) = applyCapWindows fs ap (w1 ++ w2) := by
  induction w1 with
  | nil =>
    simp only [List.nil_append]
    rw [applyCapWindows_cons, capacityEntry_skip hlp hwin, exbind_ok]
    cases hb : applyCapWindows fs ap w2 with
    | error e => rw [exbind_err]
    | ok b => rw [exbind_ok, Artifacts.empty_app]
  | cons hd tl ih =>
    obtain ⟨k0, d0⟩ := hd
    simp only [List.cons_append]
    rw [applyCapWindows_cons, applyCapWindows_cons]
    simp only [ih]

theorem apply_hourly_capacity_skip {fs : List Flight}
    {l1 l2 : List (String × List (String × CapDetails))} {ap : String}
    {w1 w2 : List (String × CapDetails)} {k : String} {det : CapDetails}
    {lp : ℚ × String} (hlp : capLimitPriority det = .ok lp)
    (hwin : parseWindow k = none) :
    apply_hourly_capacity fs (l1 ++ (ap, w1 ++ (k, det) :: w2) :: l2) =
      apply_hourly_capacity fs (l1 ++ (ap, w1 ++ w2) :: l2) := by
  induction l1 with
  | nil =>
    simp only [List.nil_append]
    rw [apply_hourly_capacity_cons, apply_hourly_capacity_cons,
      applyCapWindows_skip hlp hwin]
  | cons hd tl ih =>
    obtain ⟨ap0, wm0⟩ := hd
    simp only [List.cons_append]
    rw [apply_hourly_capacity_cons, apply_hourly_capacity_cons]
    simp only [ih]

theorem assembleModel_capacity_congr (t : RawTable)
    (ar : List CurfewRule) (q : QuotaData)
    (c1 c2 : List (String × List (String × CapDetails)))
    (w cp : List (String × ℚ)) (md bm : ℚ) (capA : Artifacts) :
    assembleModel t ⟨ar, c1, q⟩ w cp md bm capA =
      assembleModel t ⟨ar, c2, q⟩ w cp md bm capA := by
  simp only [assembleModel]

theorem build_model_capacity_congr {t : RawTable} {ar : List CurfewRule}
    {q : QuotaData} {c1 c2 : List (String × List (String × CapDetails))}
    {w cp : List (String × ℚ)} {md bm : ℚ}
    (h : apply_hourly_capacity (normalize_flight_df t) c1 =
      apply_hourly_capacity (normalize_flight_df t) c2) :
    build_model t ⟨ar, c1, q⟩ w cp md bm = build_model t ⟨ar, c2, q⟩ w cp md bm := by
  simp only [build_model]
  rw [h]
  cases h2 : apply_hourly_capacity (normalize_flight_df t) c2 with
  | error e => rfl
  | ok capA => exact congrArg Except.ok (assembleModel_capacity_congr t ar q c1 c2 w cp md bm capA)

/-- C8 (amended): (i) a curfew rule with an unparseable time string —
start or end — is skipped: the model is identical to one built without it,
hence no error is raised and **no count of skipped rules is exposed** (the
output carries no trace of the skip); (ii) likewise a capacity window whose
key has unknown syntax, provided its limit is well-formed; but (iii) a
non-numeric old-format capacity limit is *not* skipped: `int(details)` runs
outside the per-window `try` and the whole model build raises. -/
theorem c8_malformed_rules (t : RawTable) (w cp : List (String × ℚ)) (md bm : ℚ) :
    (∀ (ac : List (String × List (String × CapDetails))) (q : QuotaData)
      (l1 l2 : List CurfewRule) (r : CurfewRule),
      parseHM r.start_time_of_day = none ∨ parseHM r.end_time_of_day = none →
      build_model t ⟨l1 ++ r :: l2, ac, q⟩ w cp md bm =
        build_model t ⟨l1 ++ l2, ac, q⟩ w cp md bm) ∧
    (∀ (ar : List CurfewRule) (q : QuotaData)
      (l1 l2 : List (String × List (String × CapDetails))) (ap : String)
      (w1 w2 : List (String × CapDetails)) (k : String) (det : CapDetails)
      (lp : ℚ × String),
      capLimitPriority det = .ok lp →
      parseWindow k = none →
      build_model t ⟨ar, l1 ++ (ap, w1 ++ (k, det) :: w2) :: l2, q⟩ w cp md bm =
        build_model t ⟨ar, l1 ++ (ap, w1 ++ w2) :: l2, q⟩ w cp md bm) ∧
    (∀ (s : String) (fs : List Flight) (ap k : String),
      charsToInt s.data = none →
      capacityEntryArtifacts fs ap k (CapDetails.strD s) =
        .error ("invalid literal for int() with base 10: " ++ s)) := by
  refine ⟨?_, ?_, ?_⟩
  · intro ac q l1 l2 r hbad
    apply build_model_curfew_rule_noop
    intro s
    unfold curfewRuleStep
    by_cases htype : r.restriction_type = "AIRPORT_CURFEW"
    · rw [if_pos htype]
      rcases hbad with hbad | hbad
      · rw [hbad]
      · rw [hbad]
        cases parseHM r.start_time_of_day <;> rfl
    · rw [if_neg htype]
  · intro ar q l1 l2 ap w1 w2 k det lp hlp hwin
    exact build_model_capacity_congr (apply_hourly_capacity_skip hlp hwin)
  · intro s fs ap k hbad
    have h1 : capLimitPriority (CapDetails.strD s) =
        .error ("invalid literal for int() with base 10: " ++ s) := by
      show (match charsToInt s.data with
        | some v => Except.ok ((v : ℚ), "HIGH")
        | none =>
          (Except.error ("invalid literal for int() with base 10: " ++ s) :
            Except String (ℚ × String))) = _
      rw [hbad]
    unfold capacityEntryArtifacts
    rw [h1]
    rfl

/-- C8 counterexample: a constraint bundle whose only malformed entry is a
non-numeric old-format capacity limit (`"abc"`) makes the whole model build
raise, contradicting "skips each malformed rule individually without
raising an error"; and nothing in the engine's output counts skipped
rules. -/
theorem c8_counterexample :
    build_model tEmptyRows cdC8 [] [] 240 10000 =
      .error "invalid literal for int() with base 10: abc" := rfl

/-- C8 witness: the three parts of `c8_malformed_rules` instantiated — an
unparseable curfew time (`"late"`), an unknown window syntax (`"strange"`)
with a well-formed limit, and the non-numeric limit `"abc"`. -/
theorem c8_witness :
    parseHM "late" = none ∧
    build_model tC6 ⟨[badTimeRule], [], ⟨none, none⟩⟩ [] [] 240 10000 =
      build_model tC6 ⟨[], [], ⟨none, none⟩⟩ [] [] 240 10000 ∧
    build_model tC6 ⟨[], [("PEK", [("strange", CapDetails.intD 2)])], ⟨none, none⟩⟩
        [] [] 240 10000 =
      build_model tC6 ⟨[], [("PEK", [])], ⟨none, none⟩⟩ [] [] 240 10000 ∧
    capacityEntryArtifacts [] "PEK" "08:00-09:00" (CapDetails.strD "abc") =
      .error "invalid literal for int() with base 10: abc" := by
  refine ⟨rfl, ?_, ?_, ?_⟩
  · exact (c8_malformed_rules tC6 [] [] 240 10000).1 [] ⟨none, none⟩ [] []
      badTimeRule (Or.inl rfl)
  · exact (c8_malformed_rules tC6 [] [] 240 10000).2.1 [] ⟨none, none⟩ [] []
      "PEK" [] [] "strange" (CapDetails.intD 2) (2, "HIGH") rfl rfl
  · exact (c8_malformed_rules tC6 [] [] 240 10000).2.2 "abc" [] "PEK"
      "08:00-09:00" rfl

/-- C2 (amended): for a `MUST` hourly-capacity entry whose window key
parses, `build_model` adds the hard constraint `Σ x[f] ≤ limit` over exactly
the flights of `flightsInWindow` — departures from the airport whose
`target_dep_min_of_day` lies in the **hour-truncated** window
`[60·H1, 60·H2)` (resp. `[60·H1, 60·H1 + M)` for the duration form): the
source drops the minute components of the window key.  The summed
expression touches only the `x` variables of those flights, so membership
is decided by the pre-decision target time and the delay variable `d[f]`
never changes it. -/
theorem c2_capacity_must (t : RawTable) (cd : ConstraintData)
    (w cp : List (String × ℚ)) (md bm : ℚ) (M : Model)
    (ap : String) (wm : List (String × CapDetails)) (k : String)
    (L : ℚ) (prio : Option String) (s e : Nat)
    (hbuild : build_model t cd w cp md bm = .ok M)
    (hmem : (ap, wm) ∈ cd.airport_capacity)
    (hkey : (k, CapDetails.dictD L prio) ∈ wm)
    (hprio : prio.getD "HIGH" = "MUST")
    (hwin : parseWindow k = some (s, e))
    (hne : (flightsInWindow (normalize_flight_df t) ap s e).isEmpty = false) :
    (LinCons.le (sumX (flightsInWindow (normalize_flight_df t) ap s e)) (.const L)) ∈
      M.cons ∧
    (sumX (flightsInWindow (normalize_flight_df t) ap s e)).vars =
      (flightsInWindow (normalize_flight_df t) ap s e).map (fun f => Var.x f.flight_id) := by
  refine ⟨?_, sumX_vars _⟩
  obtain ⟨capA, hcap, hM⟩ := build_model_ok_inv hbuild
  subst hM
  obtain ⟨B, hB, hsubB⟩ := apply_hourly_capacity_ok_of_mem hcap hmem
  obtain ⟨E, hE, hsubE⟩ := applyCapWindows_ok_of_mem hB hkey
  have hEval : capacityEntryArtifacts (normalize_flight_df t) ap k
      (CapDetails.dictD L prio) =
      .ok ⟨[], [.le (sumX (flightsInWindow (normalize_flight_df t) ap s e))
        (.const L)], []⟩ := by
    unfold capacityEntryArtifacts
    rw [show capLimitPriority (CapDetails.dictD L prio) =
        .ok (L, prio.getD "HIGH") from rfl, bindb_ok, hwin]
    simp only [hne, Bool.false_eq_true, if_false, hprio, if_pos]
    rfl
  rw [hEval] at hE
  have hEeq : E = ⟨[], [.le (sumX (flightsInWindow (normalize_flight_df t) ap s e))
      (.const L)], []⟩ := by
    exact ((Except.ok.injEq _ _).mp hE).symm
  have hcmem : (LinCons.le (sumX (flightsInWindow (normalize_flight_df t) ap s e))
      (.const L)) ∈ E.cons := by
    rw [hEeq]
    exact List.mem_singleton.mpr rfl
  have hcapmem := hsubB (hsubE hcmem)
  rw [assembleModel_cons]
  exact List.mem_append.mpr (Or.inl (List.mem_append.mpr (Or.inr hcapmem)))

/-- C2 witness: the hour-truncated window `"08:30-09:30"` (parsed as
`[480, 540)`) applied to a flight with target minute 485 yields the hard
constraint in the built model. -/
theorem c2_witness :
    parseWindow "08:30-09:30" = some (480, 540) ∧
    (flightsInWindow (normalize_flight_df tC2) "PEK" 480 540).isEmpty = false ∧
    (LinCons.le (sumX (flightsInWindow (normalize_flight_df tC2) "PEK" 480 540))
        (.const 2)) ∈ (okModelOf (build_model tC2 cdC2 [] [] 240 10000)).cons := by
  refine ⟨rfl, by decide, ?_⟩
  exact (c2_capacity_must tC2 cdC2 [] [] 240 10000 _ "PEK"
    [("08:30-09:30", CapDetails.dictD 2 (some "MUST"))] "08:30-09:30" 2
    (some "MUST") 480 540 rfl (by decide) (by decide) rfl rfl (by decide)).1

/-- C2 counterexample: the claim's window for `"08:30-09:30"` is
`[510, 570)` (minutes included), under which the flight at target minute
485 is outside every window and must be unconstrained — but the built model
carries the capacity constraint over exactly that flight, because the
source truncates the window to whole hours (`[480, 540)`). -/
theorem c2_counterexample :
    specWindowBounds "08:30-09:30" = some (510, 570) ∧
    (normalize_flight_df tC2).map (fun f => f.target_dep_min_of_day) = [485] ∧
    flightsInWindow (normalize_flight_df tC2) "PEK" 510 570 = [] ∧
    parseWindow "08:30-09:30" = some (480, 540) ∧
    (flightsInWindow (normalize_flight_df tC2) "PEK" 480 540).map
      (fun f => f.flight_id) = ["CA1"] ∧
    (LinCons.le (sumX (flightsInWindow (normalize_flight_df tC2) "PEK" 480 540))
        (.const 2)) ∈ (okModelOf (build_model tC2 cdC2 [] [] 240 10000)).cons := by
  refine ⟨rfl, by decide, by decide, rfl, by decide, by decide⟩

/-- C1 (amended): for a `MUST` wrap-around curfew rule and an applicable
flight whose hard-choice selector component can actually be registered —
no earlier rule has claimed any applicable flight's
`curfew_hard_choice_{f}_{ap}` name and flight ids are unique (otherwise
pyomo's `add_component` raises a duplicate-component error that the
per-rule `except` silently swallows, dropping the rest of the rule) — the
constrained time variable of an operated flight (`x[f] = 1`) in a feasible
solution lies on one side of the gap: `time ≤ end_min` or
`time ≥ start_min` (that is, *inside* the region the spec's formula
designates as forbidden, not outside it); and when `cancel[f] = 1` the
Big-M pair is satisfied by every in-domain value of the time variable and
selector (the curfew is vacuous), provided `big_m` dominates the time
bound and `start_min`. -/
theorem c1_must_curfew_gap (t : RawTable) (cd : ConstraintData)
    (w cp : List (String × ℚ)) (md bm : ℚ) (M : Model) (σ : Var → ℚ)
    (l1 l2 : List CurfewRule) (r : CurfewRule) (st ed : Nat) (f : Flight)
    (timev : Var)
    (hbuild : build_model t cd w cp md bm = .ok M)
    (hfeas : Feasible M σ)
    (hrules : cd.airport_restriction = l1 ++ r :: l2)
    (htype : r.restriction_type = "AIRPORT_CURFEW")
    (hst : parseHM r.start_time_of_day = some st)
    (hed : parseHM r.end_time_of_day = some ed)
    (hover : ed < st)
    (hmust : r.priority.getD "HIGH" = "MUST")
    (hf : f ∈ normalize_flight_df t)
    (happly : f.departure_airport = r.airport_code ∨
      f.arrival_airport = r.airport_code)
    (htv : timev = if f.departure_airport = r.airport_code
      then Var.dep_time_of_day f.flight_id else Var.arr_time_of_day f.flight_id)
    (hnodup : ((normalize_flight_df t).map (fun x => x.flight_id)).Nodup)
    (hfresh : ∀ f' ∈ normalize_flight_df t,
      (f'.departure_airport = r.airport_code ∨
        f'.arrival_airport = r.airport_code) →
      hardChoiceName f'.flight_id r.airport_code ∉
        (applyAirportCurfewLoop (normalize_flight_df t) bm l1
          initCurfewState).names) :
    (σ (.x f.flight_id) = 1 → σ timev ≤ (ed : ℚ) ∨ (st : ℚ) ≤ σ timev) ∧
    (∀ τ : Var → ℚ, τ (.cancel_flight f.flight_id) = 1 →
      0 ≤ τ timev → τ timev ≤ 2879 →
      (τ (.curfew_hard_choice f.flight_id r.airport_code) = 0 ∨
        τ (.curfew_hard_choice f.flight_id r.airport_code) = 1) →
      (2879 : ℚ) ≤ bm → (st : ℚ) ≤ bm →
      ∀ c ∈ (curfewFlightArtifacts bm r.airport_code st ed "MUST" f).cons,
        c.holds τ) := by
  have hfa : curfewFlightArtifacts bm r.airport_code st ed "MUST" f =
      ⟨[⟨Var.curfew_hard_choice f.flight_id r.airport_code, Dom.binary⟩],
       [ .le (.var timev)
           (.add (.add (.const (ed : ℚ))
             (.smul bm (.var (.curfew_hard_choice f.flight_id r.airport_code))))
             (.smul bm (.var (.cancel_flight f.flight_id)))),
         .ge (.var timev)
           (.sub (.sub (.const (st : ℚ))
             (.smul bm (.sub (.const 1)
               (.var (.curfew_hard_choice f.flight_id r.airport_code)))))
             (.smul bm (.var (.cancel_flight f.flight_id)))) ],
       []⟩ := by
    rw [htv]
    simp [curfewFlightArtifacts, if_pos happly]
  constructor
  · -- the operated-flight direction
    intro hx1
    obtain ⟨capA, hcap, hM⟩ := build_model_ok_inv hbuild
    subst hM
    obtain ⟨hdom, hcons⟩ := hfeas
    have hstep : curfewRuleStep (normalize_flight_df t) bm r
        (applyAirportCurfewLoop (normalize_flight_df t) bm l1 initCurfewState) =
        curfewFlightsLoop bm r.airport_code st ed "MUST" (normalize_flight_df t)
          (applyAirportCurfewLoop (normalize_flight_df t) bm l1 initCurfewState) := by
      simp only [curfewRuleStep, if_pos htype, hst, hed, hmust, if_pos hover]
    have hadds := curfewFlightsLoop_must_adds bm r.airport_code st ed
      (normalize_flight_df t)
      (applyAirportCurfewLoop (normalize_flight_df t) bm l1 initCurfewState)
      f hf happly hfresh hnodup
    have hcurfew_cons : ∀ {c : LinCons},
        c ∈ (curfewFlightArtifacts bm r.airport_code st ed "MUST" f).cons →
        c ∈ (apply_airport_curfew (normalize_flight_df t) bm
          cd.airport_restriction).cons := by
      intro c hc
      unfold apply_airport_curfew
      rw [hrules, applyAirportCurfewLoop_append]
      show c ∈ (applyAirportCurfewLoop (normalize_flight_df t) bm l2
        (curfewRuleStep (normalize_flight_df t) bm r
          (applyAirportCurfewLoop (normalize_flight_df t) bm l1
            initCurfewState))).art.cons
      rw [hstep]
      exact applyAirportCurfewLoop_cons_mono (normalize_flight_df t) bm l2 _
        (hadds.1 c hc)
    have hcurfew_decls : ∀ {dv : VarDecl},
        dv ∈ (curfewFlightArtifacts bm r.airport_code st ed "MUST" f).decls →
        dv ∈ (apply_airport_curfew (normalize_flight_df t) bm
          cd.airport_restriction).decls := by
      intro dv hd
      unfold apply_airport_curfew
      rw [hrules, applyAirportCurfewLoop_append]
      show dv ∈ (applyAirportCurfewLoop (normalize_flight_df t) bm l2
        (curfewRuleStep (normalize_flight_df t) bm r
          (applyAirportCurfewLoop (normalize_flight_df t) bm l1
            initCurfewState))).art.decls
      rw [hstep]
      exact applyAirportCurfewLoop_decls_mono (normalize_flight_df t) bm l2 _
        (hadds.2 dv hd)
    have hmemLe : (LinCons.le (.var timev)
        (.add (.add (.const (ed : ℚ))
          (.smul bm (.var (.curfew_hard_choice f.flight_id r.airport_code))))
          (.smul bm (.var (.cancel_flight f.flight_id))))) ∈
        (assembleModel t cd w cp md bm capA).cons := by
      rw [assembleModel_cons]
      refine List.mem_append.mpr (Or.inl (List.mem_append.mpr (Or.inl
        (List.mem_append.mpr (Or.inr ?_)))))
      refine hcurfew_cons ?_
      rw [hfa]
      exact List.mem_cons_self _ _
    have hmemGe : (LinCons.ge (.var timev)
        (.sub (.sub (.const (st : ℚ))
          (.smul bm (.sub (.const 1)
            (.var (.curfew_hard_choice f.flight_id r.airport_code)))))
          (.smul bm (.var (.cancel_flight f.flight_id))))) ∈
        (assembleModel t cd w cp md bm capA).cons := by
      rw [assembleModel_cons]
      refine List.mem_append.mpr (Or.inl (List.mem_append.mpr (Or.inl
        (List.mem_append.mpr (Or.inr ?_)))))
      refine hcurfew_cons ?_
      rw [hfa]
      exact List.mem_cons_of_mem _ (List.mem_cons_self _ _)
    have hdy : (⟨Var.curfew_hard_choice f.flight_id r.airport_code,
        Dom.binary⟩ : VarDecl) ∈ (assembleModel t cd w cp md bm capA).decls := by
      rw [assembleModel_decls]
      refine List.mem_append.mpr (Or.inl (List.mem_append.mpr (Or.inl
        (List.mem_append.mpr (Or.inr ?_)))))
      refine hcurfew_decls ?_
      rw [hfa]
      exact List.mem_cons_self _ _
    have hallc : ∀ c ∈ structuralCons (normalize_flight_df t) md, c.holds σ := by
      intro c hc
      apply hcons
      rw [assembleModel_cons]
      exact List.mem_append.mpr (Or.inl (List.mem_append.mpr (Or.inl
        (List.mem_append.mpr (Or.inl hc)))))
    obtain ⟨_, hlink, _, _, _⟩ := structural_holds hallc hf
    have hcancel : σ (.cancel_flight f.flight_id) = 0 := by
      rw [hx1] at hlink
      linarith
    have hLe := hcons _ hmemLe
    have hGe := hcons _ hmemGe
    simp only [LinCons.holds, LinExpr.eval] at hLe hGe
    have hydom := hdom _ hdy
    rcases hydom with hy | hy
    · left
      rw [hy, hcancel] at hLe
      have hz : bm * (0 : ℚ) = 0 := mul_zero bm
      linarith
    · right
      rw [hy, hcancel] at hGe
      have hz : bm * (0 : ℚ) = 0 := mul_zero bm
      have hz1 : (1 : ℚ) - 1 = 0 := by norm_num
      rw [hz1, hz] at hGe
      linarith
  · -- vacuity under cancellation
    intro τ hcan h0 hb hybin hbm1 hbm2 c hc
    rw [hfa] at hc
    have hed0 : (0 : ℚ) ≤ (ed : ℚ) := Nat.cast_nonneg ed
    rcases List.mem_cons.mp hc with hc1 | hc'
    · subst hc1
      simp only [LinCons.holds, LinExpr.eval]
      rcases hybin with hy | hy <;> rw [hy, hcan] <;>
        simp only [mul_zero, mul_one] <;> linarith
    · rcases List.mem_cons.mp hc' with hc2 | hnil
      · subst hc2
        simp only [LinCons.holds, LinExpr.eval]
        rcases hybin with hy | hy <;> rw [hy, hcan] <;>
          simp only [mul_zero, mul_one, sub_zero] <;> nlinarith
      · cases hnil

set_option maxRecDepth 10000 in
/-- C1 counterexample: for the `MUST` overnight curfew PEK 23:00→06:00 the
built model admits a feasible solution operating the flight
(`x = 1`) with its departure-time variable at minute 1380 — squarely inside
the spec's forbidden interval `[start_min, start_min + 1440)`.  The claim
that the time variable lies *outside* that interval is false. -/
theorem c1_counterexample :
    parseHM "23:00" = some 1380 ∧ parseHM "06:00" = some 360 ∧
    Feasible (okModelOf (build_model tC1 cdC1 [] [] 240 10000)) sigC1 ∧
    sigC1 (.x "CA900") = 1 ∧
    specForbidden 1380 360 (sigC1 (.dep_time_of_day "CA900")) := by
  refine ⟨rfl, rfl, by decide, rfl, by decide⟩

set_option maxRecDepth 10000 in
/-- C1 witness: the gap property instantiated on the same concrete model —
the operated flight's departure-time variable satisfies
`time ≤ 360 ∨ 1380 ≤ time`. -/
theorem c1_witness :
    Feasible (okModelOf (build_model tC1 cdC1 [] [] 240 10000)) sigC1 ∧
    sigC1 (.x "CA900") = 1 ∧
    (sigC1 (.dep_time_of_day "CA900") ≤ (360 : ℚ) ∨
      (1380 : ℚ) ≤ sigC1 (.dep_time_of_day "CA900")) := by
  have hfe : Feasible (okModelOf (build_model tC1 cdC1 [] [] 240 10000)) sigC1 := by
    decide
  refine ⟨hfe, rfl, ?_⟩
  have h := (c1_must_curfew_gap tC1 cdC1 [] [] 240 10000
    (okModelOf (build_model tC1 cdC1 [] [] 240 10000)) sigC1 [] []
    ⟨"AIRPORT_CURFEW", "PEK", "23:00", "06:00", some "MUST"⟩ 1380 360
    ⟨"CA900", "CA900", "PEK", "SHA", 1380, 1380, 120, 30000, 0, 1380⟩
    (Var.dep_time_of_day "CA900")
    rfl hfe rfl rfl rfl rfl (by decide) rfl (by decide)
    (Or.inl rfl) (by decide) (by decide)
    (by intro f' hm ha hcontra
        simp [applyAirportCurfewLoop, initCurfewState] at hcontra)).1 rfl
  simpa using h

theorem digitsVal_append (l : List Char) (c : Char) :
    digitsVal (l ++ [c]) = digitsVal l * 10 + (c.toNat - 48) := by
  simp [digitsVal, List.foldl_append]

theorem digit_char_val (d : Nat) (h : d < 10) :
    (Char.ofNat (48 + d)).toNat - 48 = d := by
  interval_cases d <;> decide

theorem digitsVal_natDigitsAux (fuel : Nat) :
    ∀ n : Nat, n < fuel → digitsVal (natDigitsAux fuel n) = n := by
  induction fuel with
  | zero => intro n h; omega
  | succ fuel ih =>
    intro n h
    by_cases h10 : n < 10
    · show digitsVal (if n < 10 then [Char.ofNat (48 + n)]
        else natDigitsAux fuel (n / 10) ++ [Char.ofNat (48 + n % 10)]) = n
      rw [if_pos h10]
      show digitsVal [Char.ofNat (48 + n)] = n
      simp only [digitsVal, List.foldl_cons, List.foldl_nil]
      rw [Nat.zero_mul, Nat.zero_add]
      exact digit_char_val n h10
    · show digitsVal (if n < 10 then [Char.ofNat (48 + n)]
        else natDigitsAux fuel (n / 10) ++ [Char.ofNat (48 + n % 10)]) = n
      rw [if_neg h10]
      have hdivlt : n / 10 < n := Nat.div_lt_self (by omega) (by omega)
      rw [digitsVal_append, ih (n / 10) (by omega),
        digit_char_val (n % 10) (Nat.mod_lt _ (by omega))]
      omega

theorem natToStr_injective (m n : Nat) (h : natToStr m = natToStr n) : m = n := by
  have hdata : natDigitsAux (m + 1) m = natDigitsAux (n + 1) n :=
    congrArg String.data h
  have hval := congrArg digitsVal hdata
  rw [digitsVal_natDigitsAux (m + 1) m (by omega),
    digitsVal_natDigitsAux (n + 1) n (by omega)] at hval
  exact hval

theorem fid_injective (a b : Nat) (h : "F" ++ natToStr a = "F" ++ natToStr b) :
    a = b := by
  have hdata := congrArg String.data h
  rw [String.data_append, String.data_append] at hdata
  have htail : (natToStr a).data = (natToStr b).data :=
    List.append_cancel_left hdata
  exact natToStr_injective a b (congrArg String.mk htail)

theorem ids_zipWith_map (fs : List Flight) (ids : List String)
    (h : ids.length = fs.length) :
    (List.zipWith (fun f s => { f with flight_id := s }) fs ids).map
      (fun f => f.flight_id) = ids := by
  induction fs generalizing ids with
  | nil =>
    cases ids with
    | nil => simp
    | cons s stl => simp at h
  | cons f tl ih =>
    cases ids with
    | nil => simp at h
    | cons s stl =>
      simp only [List.zipWith_cons_cons, List.map_cons]
      rw [ih stl (by simpa using h)]

/-- C9 (amended): the normalizer itself leaves duplicate flight ids in
place (see the counterexample); the de-duplication lives in the API layer
(`fixDuplicateIds`): whenever the normalized table has any duplicate id,
*all* rows are re-assigned the sequential ids `F1, F2, …` in input order,
after which the ids are always pairwise distinct. -/
theorem c9_duplicate_ids (t : RawTable) :
    ((fixDuplicateIds (normalize_flight_df t)).map (fun f => f.flight_id)).Nodup ∧
    (¬ ((normalize_flight_df t).map (fun f => f.flight_id)).Nodup →
      (fixDuplicateIds (normalize_flight_df t)).map (fun f => f.flight_id) =
        (List.range (normalize_flight_df t).length).map
          (fun i => "F" ++ natToStr (i + 1))) := by
  by_cases h : ((normalize_flight_df t).map (fun f => f.flight_id)).Nodup
  · constructor
    · rw [fixDuplicateIds, if_pos h]
      exact h
    · intro hcontra
      exact absurd h hcontra
  · have hids : (fixDuplicateIds (normalize_flight_df t)).map (fun f => f.flight_id) =
        (List.range (normalize_flight_df t).length).map
          (fun i => "F" ++ natToStr (i + 1)) := by
      rw [fixDuplicateIds, if_neg h]
      exact ids_zipWith_map _ _ (by simp)
    refine ⟨?_, fun _ => hids⟩
    rw [hids]
    refine List.Nodup.map ?_ (List.nodup_range _)
    intro a b hab
    have := fid_injective (a + 1) (b + 1) hab
    omega

/-- C9 counterexample: a table whose `flight_id` column holds `"A"` twice is
returned by the normalizer with both duplicates intact — the normalizer does
not reassign `F1, F2, …` and its canonical table does not have unique ids. -/
theorem c9_counterexample :
    (normalize_flight_df tC9).map (fun f => f.flight_id) = ["A", "A"] ∧
    ¬ ((normalize_flight_df tC9).map (fun f => f.flight_id)).Nodup := by
  refine ⟨rfl, by decide⟩

/-- C9 witness: on the duplicate-id table the API-layer repair produces the
sequential ids `F1, F2`, which are distinct. -/
theorem c9_witness :
    ¬ ((normalize_flight_df tC9).map (fun f => f.flight_id)).Nodup ∧
    (fixDuplicateIds (normalize_flight_df tC9)).map (fun f => f.flight_id) =
      ["F1", "F2"] := by
  refine ⟨by decide, ?_⟩
  have h := (c9_duplicate_ids tC9).2 (by decide)
  rw [h]
  decide
